import Mathlib

/-!
Verification development for the PTIRK DAE stepper
(`src/scipy_dae/integrate/_dae/ptirk.py`).

The Python source is shallowly embedded over an arbitrary linear ordered
field `F` (instantiated at `ℚ` for executable witnesses and at `ℝ` for the
statements that involve `arctan` and real powers).  External numeric
primitives that the source merely calls — the weighted RMS `norm`, the LU
`factorize`/`solve` pair, the residual function, `np.isfinite`,
`np.nextafter`, `np.arctan` and the non-integer power `**` — are passed in
as parameters, mirroring the boundary contracts of the design (§6 of the
specification): the embedding fixes all control flow and all field
arithmetic of the source, and leaves exactly those opaque collaborator
calls abstract.
-/

namespace PTIRK

/-- State/derivative vectors of length `n`. -/
abbrev Vec (n : ℕ) (F : Type) := Fin n → F

/-- Per-stage arrays (`s` stages of `n`-vectors). -/
abbrev SMat (s n : ℕ) (F : Type) := Fin s → Fin n → F

/-- Square `n × n` Jacobian-shaped matrices. -/
abbrev NMat (n : ℕ) (F : Type) := Fin n → Fin n → F

variable {F : Type} [LinearOrderedField F] {s n : ℕ} {LU : Type}

/-- Row-combination of stage arrays: the embedding of `M @ X` for an
`s × s` matrix `M` acting on the stage index of `X` (as in `TI @ F` and
`T.dot(W)` in the source). -/
def stageMul (M : Fin s → Fin s → F) (X : SMat s n F) : SMat s n F :=
  fun i k => ∑ j, M i j * X j k

/-- Factor of the smooth limiter (`KAPPA = 1` at module level in the source). -/
def KAPPA : F := 1

/-- Embedding of `predict_factor` (source lines 283-328).  `atanF` models
`np.arctan` and `powF` models the float power `**` with non-integer
exponent; both are opaque numeric primitives of the platform. -/
def predict_factor (atanF : F → F) (powF : F → F → F) (h_abs : F)
    (h_abs_old : Option F) (error_norm : F) (error_norm_old : Option F)
    (s : ℕ) : F :=
  let multiplier : F :=
    match error_norm_old, h_abs_old with
    | some eno, some hao =>
        if error_norm = 0 then 1
        else h_abs / hao * powF (eno / error_norm) (1 / ((s : F) + 1))
    | _, _ => 1
  let factor := min 1 multiplier * powF error_norm (-(1 / ((s : F) + 1)))
  1 + KAPPA * atanF ((factor - 1) / KAPPA)

/-- Embedding of the stage-count validation performed at construction time
(`assert stages % 2 == 0`, source line 493). -/
def stages_validation (stages : ℤ) : Bool := stages % 2 == 0

/-- The immutable per-instance tableau data computed by `radau_constants`
and referenced by `_step_impl` (`gammas, c, T, TI, A, A_inv, v, v2, b_hat,
b0, P, P2`).  The matrices are opaque real constants here; the claims under
verification concern the solver's control flow, not their numeric values. -/
structure Tableau (s : ℕ) (F : Type) where
  gammas : Fin s → F
  c : Fin s → F
  T : Fin s → Fin s → F
  TI : Fin s → Fin s → F
  A : Fin s → Fin s → F
  A_inv : Fin s → Fin s → F
  v : Fin s → F
  v2 : Fin s → F
  b_hat : Fin s → F
  b0 : F
  P : Fin s → Fin s → F
  P2 : Fin s → Fin s → F

/-- The opaque collaborator primitives of the solver (§6 boundary
contracts): the residual `fun`, the `np.isfinite` check on a stage
residual array (`finOK`), the RMS `norm` on stage arrays (`normS`) and on
plain vectors (`normV`), the LU `factorize`/`solve` pair, the optional
user Jacobian provider, the `np.nextafter` spacing `nextafter(t, dir·∞) −
t`, and the transcendental `arctan` and non-integer power primitives. -/
structure Prims (s n : ℕ) (F LU : Type) where
  fn : F → Vec n F → Vec n F → Vec n F
  finOK : SMat s n F → Bool
  normS : SMat s n F → F
  normV : Vec n F → F
  lu : NMat n F → LU
  solve_lu : LU → Vec n F → Vec n F
  jac : Option (F → Vec n F → Vec n F → NMat n F × NMat n F)
  spacing : F → F → F
  atanF : F → F
  powF : F → F → F

/-- Result record of a collocation solve: `converged, n_iter, Y, Yp, Z,
rate` (source lines 224 and 280). -/
structure ColResult (s n : ℕ) (F : Type) where
  converged : Bool
  n_iter : ℕ
  Y : SMat s n F
  Yp : SMat s n F
  Z : SMat s n F
  rate : Option F
  deriving DecidableEq

/-- The policy-relevant projection of a collocation result: the converged
flag, the number of iterations used, and the last convergence rate. -/
structure PolicyResult (F : Type) where
  converged : Bool
  n_iter : ℕ
  rate : Option F
  deriving DecidableEq

/-- Projection of a collocation result onto its stopping-policy content. -/
def ColResult.policyView (r : ColResult s n F) : PolicyResult F :=
  ⟨r.converged, r.n_iter, r.rate⟩

/-- The divergence test of the simplified-Newton loop (source line 197):
`rate ≥ 1 or rate^(max_iter − k)/(1 − rate)·‖dW‖ > tol`, applied only once
a rate is available. -/
def divergeB (tol : F) (expo : ℕ) (rate : Option F) (nu : F) : Bool :=
  match rate with
  | some r => decide (1 ≤ r) || decide (tol < r ^ expo / (1 - r) * nu)
  | none => false

/-- The convergence test of the simplified-Newton loop (source line 218):
`‖dW‖ = 0 or (rate available and rate/(1 − rate)·‖dW‖ < tol)`. -/
def convergeB (tol : F) (rate : Option F) (nu : F) : Bool :=
  decide (nu = 0) ||
    (match rate with
     | some r => decide (r / (1 - r) * nu < tol)
     | none => false)

/-- The stage residual array `F[i] = fun(tau[i], Y[i], Yp[i])` with
`tau = t + h*C` (source lines 169 and 183-184). -/
def stageResiduals (prm : Prims s n F LU) (tab : Tableau s F) (t h : F)
    (Y Yp : SMat s n F) : SMat s n F :=
  fun i => prm.fn (t + h * tab.c i) (Y i) (Yp i)

/-- One correction of the increments-as-unknowns strategy (source lines
183-193): evaluate the residuals, abort on a non-finite value, transform
into the block basis, solve each pre-factored block, and return the
correction `dW` together with its scale-normalized norm. -/
def colCorr1 (prm : Prims s n F LU) (tab : Tableau s F) (t : F)
    (h : F) (scale : Vec n F) (LUs : Fin s → LU) (Y Yp : SMat s n F) :
    Option (SMat s n F × F) :=
  let Fres := stageResiduals prm tab t h Y Yp
  if prm.finOK Fres then
    let U := stageMul tab.TI Fres
    let dW := fun i => prm.solve_lu (LUs i) (fun j => -(U i j))
    some (dW, prm.normS (fun i j => dW i j / scale j))
  else none

/-- Loop state of the increments strategy: the transformed unknowns `W`
and the derived `Z = T·W`, `Y = y + Z`, `Yp = (A⁻¹/h)·Z`. -/
structure ColState1 (s n : ℕ) (F : Type) where
  W : SMat s n F
  Z : SMat s n F
  Y : SMat s n F
  Yp : SMat s n F
  deriving DecidableEq

/-- The state update of the increments strategy after applying a
correction `dW` (source lines 213-216). -/
def colUpdate1 (tab : Tableau s F) (y : Vec n F) (h : F)
    (W dW : SMat s n F) : ColState1 s n F :=
  let Wn := fun i j => W i j + dW i j
  let Zn := stageMul tab.T Wn
  ⟨Wn, Zn, fun i j => y j + Zn i j,
    fun i j => (∑ l, tab.A_inv i l * Zn l j) / h⟩

/-- The Newton iteration of `solve_collocation_system` (source lines
182-222), recursing on the remaining iteration budget; `k` is the 0-based
index of the iteration about to run and `max_iter − k` equals the fuel. -/
def colLoop1 (prm : Prims s n F LU) (tab : Tableau s F) (t : F)
    (y : Vec n F) (h : F) (scale : Vec n F) (tol : F) (LUs : Fin s → LU)
    (max_iter : ℕ) :
    ℕ → ℕ → SMat s n F → SMat s n F → SMat s n F → SMat s n F →
      Option F → Option F → ColResult s n F
  | 0, k, _, Z, Y, Yp, _, rate => ⟨false, k, Y, Yp, Z, rate⟩
  | m + 1, k, W, Z, Y, Yp, nuOld, rate0 =>
    match colCorr1 prm tab t h scale LUs Y Yp with
    | none => ⟨false, k + 1, Y, Yp, Z, rate0⟩
    | some (dW, nu) =>
      let rate : Option F :=
        match nuOld with
        | none => rate0
        | some nuo => some (nu / nuo)
      if divergeB tol (max_iter - k) rate nu then
        ⟨false, k + 1, Y, Yp, Z, rate⟩
      else
        let u := colUpdate1 tab y h W dW
        if convergeB tol rate nu then ⟨true, k + 1, u.Y, u.Yp, u.Z, rate⟩
        else colLoop1 prm tab t y h scale tol LUs max_iter
          m (k + 1) u.W u.Z u.Y u.Yp (some nu) rate

/-- Entry state of the increments strategy (source lines 171-174):
`Z = Z0`, `W = TI·Z0`, `Y = y + Z0`, `Yp = (A⁻¹/h)·Z0`. -/
def colEntry1 (tab : Tableau s F) (y : Vec n F) (h : F) (Z0 : SMat s n F) :
    ColState1 s n F :=
  ⟨stageMul tab.TI Z0, Z0, fun i j => y j + Z0 i j,
    fun i j => (∑ l, tab.A_inv i l * Z0 l j) / h⟩

/-- Embedding of `solve_collocation_system` (source lines 122-224):
increments-as-unknowns strategy. -/
def solve_collocation_system (prm : Prims s n F LU) (tab : Tableau s F)
    (t : F) (y : Vec n F) (h : F) (Z0 : SMat s n F) (scale : Vec n F)
    (tol : F) (LUs : Fin s → LU) (newton_max_iter : ℕ) : ColResult s n F :=
  colLoop1 prm tab t y h scale tol LUs newton_max_iter
    newton_max_iter 0 (colEntry1 tab y h Z0).W (colEntry1 tab y h Z0).Z
    (colEntry1 tab y h Z0).Y (colEntry1 tab y h Z0).Yp none none

/-- One correction of the derivatives-as-unknowns strategy (source lines
244-260): evaluate the residuals, abort on a non-finite value, solve the
blocks, transform back, and return the already-updated `(Y, Yp)` pair
together with the scale-normalized norm of the state increment `dY`. -/
def colCorr2 (prm : Prims s n F LU) (tab : Tableau s F) (t : F)
    (h : F) (scale : Vec n F) (LUs : Fin s → LU) (Y Yp : SMat s n F) :
    Option ((SMat s n F × SMat s n F) × F) :=
  let Fres := stageResiduals prm tab t h Y Yp
  if prm.finOK Fres then
    let U := stageMul tab.TI Fres
    let dV := fun i => prm.solve_lu (LUs i) (fun j => -(U i j))
    let dYp := stageMul tab.T dV
    let dY := fun i j => h * ∑ l, tab.A i l * dYp l j
    some ((fun i j => Y i j + dY i j, fun i j => Yp i j + dYp i j),
      prm.normS (fun i j => dY i j / scale j))
  else none

/-- The Newton iteration of `solve_collocation_system2` (source lines
243-278); in this strategy the correction is applied before the checks,
and on exit `Z` is reported as `Y − y`. -/
def colLoop2 (prm : Prims s n F LU) (tab : Tableau s F) (t : F)
    (y : Vec n F) (h : F) (scale : Vec n F) (tol : F) (LUs : Fin s → LU)
    (max_iter : ℕ) :
    ℕ → ℕ → SMat s n F → SMat s n F → Option F → Option F →
      ColResult s n F
  | 0, k, Y, Yp, _, rate => ⟨false, k, Y, Yp, fun i j => Y i j - y j, rate⟩
  | m + 1, k, Y, Yp, nuOld, rate0 =>
    match colCorr2 prm tab t h scale LUs Y Yp with
    | none => ⟨false, k + 1, Y, Yp, fun i j => Y i j - y j, rate0⟩
    | some ((Yn, Ypn), nu) =>
      let rate : Option F :=
        match nuOld with
        | none => rate0
        | some nuo => some (nu / nuo)
      if divergeB tol (max_iter - k) rate nu then
        ⟨false, k + 1, Yn, Ypn, fun i j => Yn i j - y j, rate⟩
      else if convergeB tol rate nu then
        ⟨true, k + 1, Yn, Ypn, fun i j => Yn i j - y j, rate⟩
      else colLoop2 prm tab t y h scale tol LUs max_iter
        m (k + 1) Yn Ypn (some nu) rate

/-- Entry state of the derivatives strategy (source lines 233-234):
`Yp = Yp0`, `Y = y + h·A·Yp0`. -/
def colEntry2 (tab : Tableau s F) (y : Vec n F) (h : F) (Yp0 : SMat s n F) :
    SMat s n F × SMat s n F :=
  ((fun i j => y j + h * ∑ l, tab.A i l * Yp0 l j), Yp0)

/-- Embedding of `solve_collocation_system2` (source lines 227-280):
derivatives-as-unknowns strategy. -/
def solve_collocation_system2 (prm : Prims s n F LU) (tab : Tableau s F)
    (t : F) (y : Vec n F) (h : F) (Yp0 : SMat s n F) (scale : Vec n F)
    (tol : F) (LUs : Fin s → LU) (newton_max_iter : ℕ) : ColResult s n F :=
  colLoop2 prm tab t y h scale tol LUs newton_max_iter
    newton_max_iter 0
    (colEntry2 tab y h Yp0).1 (colEntry2 tab y h Yp0).2 none none

/-- Modelled from the spec: the two-stage convergence/divergence heuristic
of §4.2, written over an abstract correction generator `stepf` (which
returns `none` on a non-finite residual evaluation, and otherwise the
updated unknowns together with the scale-normalized correction norm), and
amended so that the exactly-zero convergence test applies after every
correction including the first, while the rate-based tests apply only from
the second correction onward. -/
def newtonPolicy {σ : Type} (stepf : σ → Option (σ × F)) (tol : F)
    (max_iter : ℕ) :
    ℕ → ℕ → σ → Option F → Option F → PolicyResult F
  | 0, k, _, _, rate => ⟨false, k, rate⟩
  | m + 1, k, st, nuOld, rate0 =>
    match stepf st with
    | none => ⟨false, k + 1, rate0⟩
    | some (stn, nu) =>
      let rate : Option F :=
        match nuOld with
        | none => rate0
        | some nuo => some (nu / nuo)
      if divergeB tol (max_iter - k) rate nu then ⟨false, k + 1, rate⟩
      else if convergeB tol rate nu then ⟨true, k + 1, rate⟩
      else newtonPolicy stepf tol max_iter m (k + 1) stn (some nu) rate

/-- Modelled from the spec: the heuristic exactly as the claim words it —
"no convergence/divergence check after the first correction; from the
second correction onward" the rate is formed and the divergence, zero-norm
and rate convergence tests are applied. -/
def newtonPolicyLiteral {σ : Type} (stepf : σ → Option (σ × F)) (tol : F)
    (max_iter : ℕ) :
    ℕ → ℕ → σ → Option F → Option F → PolicyResult F
  | 0, k, _, _, rate => ⟨false, k, rate⟩
  | m + 1, k, st, nuOld, rate0 =>
    match stepf st with
    | none => ⟨false, k + 1, rate0⟩
    | some (stn, nu) =>
      match nuOld with
      | none =>
        newtonPolicyLiteral stepf tol max_iter m (k + 1) stn (some nu) rate0
      | some nuo =>
        let rate : Option F := some (nu / nuo)
        if divergeB tol (max_iter - k) rate nu then ⟨false, k + 1, rate⟩
        else if convergeB tol rate nu then ⟨true, k + 1, rate⟩
        else newtonPolicyLiteral stepf tol max_iter m (k + 1) stn (some nu) rate

/-- The correction generator induced by the increments strategy: one
residual evaluation, block solve and state update, as performed per
iteration by `solve_collocation_system`. -/
def colStep1 (prm : Prims s n F LU) (tab : Tableau s F) (t : F)
    (y : Vec n F) (h : F) (scale : Vec n F) (LUs : Fin s → LU) :
    ColState1 s n F → Option (ColState1 s n F × F) := fun st =>
  (colCorr1 prm tab t h scale LUs st.Y st.Yp).map
    (fun p => (colUpdate1 tab y h st.W p.1, p.2))

/-- The correction generator induced by the derivatives strategy. -/
def colStep2 (prm : Prims s n F LU) (tab : Tableau s F) (t : F)
    (h : F) (scale : Vec n F) (LUs : Fin s → LU) :
    SMat s n F × SMat s n F → Option ((SMat s n F × SMat s n F) × F) :=
  fun st => colCorr2 prm tab t h scale LUs st.1 st.2

/-- Embedding of the `RadauDenseOutput` snapshot (source lines 779-787):
interval bounds, stored step `h = t − t_old`, previous state/derivative
and the two coefficient matrices `Q`, `Qp` (with `cols` columns, so the
polynomial order is `cols − 1`). -/
structure RadauDenseOutput (n cols : ℕ) (F : Type) where
  t_old : F
  t : F
  h : F
  y_old : Vec n F
  Q : Fin n → Fin cols → F
  yp_old : Vec n F
  Qp : Fin n → Fin cols → F
  deriving DecidableEq

/-- Embedding of `RadauDenseOutput._call_impl` (source lines 789-823) at a
scalar query time: `x = (t − t_old)/h`, monomial powers `x^c` for
`c = 1..order+1`, state `y = y_old + Q·p`, and derivative
`yp = Q·dp` with `dp = (c/h)·x^(c−1)` — the derivative of the same
interpolation polynomial (the `yp_old + Qp·p` variant is dead code in the
source). -/
def RadauDenseOutput.callImpl {cols : ℕ} (D : RadauDenseOutput n cols F)
    (tq : F) : Vec n F × Vec n F :=
  let x := (tq - D.t_old) / D.h
  let p : Fin cols → F := fun c => x ^ ((c : ℕ) + 1)
  let dp : Fin cols → F := fun c => (((c : ℕ) + 1 : F) / D.h) * x ^ (c : ℕ)
  (fun i => D.y_old i + ∑ c, D.Q i c * p c,
   fun i => ∑ c, D.Q i c * dp c)

/-- Embedding of `PTIRKDAE._compute_dense_output` (source lines 765-773):
`Z = Y − y_old`, `Q = Zᵀ·P`, `Zp = Yp − yp_old`, `Qp = Zpᵀ·P`. -/
def compute_dense_output (t_old t : F) (y_old yp_old : Vec n F)
    (Y Yp : SMat s n F) (P : Fin s → Fin s → F) :
    RadauDenseOutput n s F where
  t_old := t_old
  t := t
  h := t - t_old
  y_old := y_old
  Q := fun j l => ∑ i, (Y i j - y_old j) * P i l
  yp_old := yp_old
  Qp := fun j l => ∑ i, (Yp i j - yp_old j) * P i l

/-- A concrete dense output built by `compute_dense_output` from one
solved stage value `Y = 1` over `[0, 1]` with `y_old = yp_old = 0` and a
unit interpolation matrix. -/
def cDense : RadauDenseOutput 1 1 ℚ :=
  compute_dense_output 0 1 (fun _ => 0) (fun _ => 0) (fun _ _ => 1)
    (fun _ _ => 0) (fun _ _ => 1)

/-- Construction-time configuration of a solver instance, together with
the direction/boundary data fixed by the base class.  `unknown_velocities`
embeds the module-level `UNKNOWN_VELOCITIES` strategy toggle (set to
`True` in the source). -/
structure Config (n : ℕ) (F : Type) where
  t_bound : F
  direction : F
  max_step : F
  rtol : F
  atol : Vec n F
  newton_tol : F
  newton_max_iter : ℕ
  continuous_error_weight : F
  jac_recompute_rate : F
  controller_deadband : F × F
  newton_iter_embedded : ℕ
  unknown_velocities : Bool

/-- The default `controller_deadband` of the constructor
(`controller_deadband=(1.0, 1.2)`, source line 488). -/
def controller_deadband_default : F × F := (1, 6 / 5)

/-- The persistent solver state owned by the step engine and mutated only
on acceptance: `t, y, yp`, the step magnitude and the previous
(step, error-norm) pair, the Jacobian pair with its validity flag, the
cached per-block factorizations, the last dense output, and the stored
previous time/state/derivative and stage arrays. -/
structure StepState (s n : ℕ) (F LU : Type) where
  t : F
  y : Vec n F
  yp : Vec n F
  h_abs : F
  h_abs_old : Option F
  error_norm_old : Option F
  Jy : NMat n F
  Jyp : NMat n F
  LUs : Option (Fin s → LU)
  current_jac : Bool
  sol : Option (RadauDenseOutput n s F)
  t_old : Option F
  y_old : Vec n F
  yp_old : Vec n F
  Zs : Option (SMat s n F)
  Ys : Option (SMat s n F)
  Yps : Option (SMat s n F)
  deriving DecidableEq

/-- The distinguished failure message of the base solver class
(`self.TOO_SMALL_STEP`). -/
def TOO_SMALL_STEP : String :=
  "Required step size is less than spacing between numbers."

/-- `min_step` of a step attempt (source line 576): 10 times the local
floating-point spacing at `t` in the integration direction, with
`prm.spacing t d` modelling `np.nextafter(t, d·∞) − t`. -/
def minStepOf (prm : Prims s n F LU) (cfg : Config n F) (t : F) : F :=
  10 * |prm.spacing t cfg.direction|

/-- The entry clamp of `_step_impl` (source lines 577-588): a stored step
magnitude above `max_step` (resp. below `min_step`) is replaced by the
violated bound and the attempt-local previous (step, error-norm) history
is discarded; otherwise all three values pass through unchanged.  The
persistent fields are not written here. -/
def stepEntryClamp (h_abs max_step min_step : F)
    (h_abs_old error_norm_old : Option F) : F × Option F × Option F :=
  if h_abs > max_step then (max_step, none, none)
  else if h_abs < min_step then (min_step, none, none)
  else (h_abs, h_abs_old, error_norm_old)

/-- The per-attempt step clipping against `t_bound` (source lines
604-611): `h = h_abs·direction`, `t_new = t + h` truncated at `t_bound`,
and the signed step recomputed as `t_new − t`. -/
def clipT (cfg : Config n F) (t h_abs : F) : F × F :=
  let h0 := h_abs * cfg.direction
  let t_new0 := t + h0
  let t_new := if cfg.direction * (t_new0 - cfg.t_bound) > 0
    then cfg.t_bound else t_new0
  (t_new, t_new - t)

/-- The residual scale of a step attempt, `atol + |y|·rtol` (source line
623). -/
def scaleOf (cfg : Config n F) (y : Vec n F) : Vec n F :=
  fun j => cfg.atol j + |y j| * cfg.rtol

/-- The per-attempt stage guess (source lines 613-622): zero on the very
first step, otherwise the previous dense output evaluated at the `s`
future collocation times (derivative samples under the
derivatives-as-unknowns strategy, state increments otherwise). -/
def stageGuess (cfg : Config n F) (tab : Tableau s F)
    (sol : Option (RadauDenseOutput n s F)) (t h : F) (y : Vec n F) :
    SMat s n F :=
  match sol with
  | none => fun _ _ => 0
  | some d =>
    if cfg.unknown_velocities then fun i => (d.callImpl (t + h * tab.c i)).2
    else fun i j => (d.callImpl (t + h * tab.c i)).1 j - y j

/-- The per-block iteration-matrix factorizations (source lines 627-632):
`lu(Jyp + h·γᵢ·Jy)` under the derivatives strategy, `lu(Jyp/(h·γᵢ) + Jy)`
under the increments strategy. -/
def buildLUs (prm : Prims s n F LU) (tab : Tableau s F) (cfg : Config n F)
    (h : F) (Jy Jyp : NMat n F) : Fin s → LU :=
  if cfg.unknown_velocities then
    fun i => prm.lu (fun a b => Jyp a b + h * tab.gammas i * Jy a b)
  else
    fun i => prm.lu (fun a b => 1 / (h * tab.gammas i) * Jyp a b + Jy a b)

/-- Strategy dispatch of the collocation solve (source lines 634-641). -/
def runStrategy (prm : Prims s n F LU) (tab : Tableau s F)
    (cfg : Config n F) (t : F) (y : Vec n F) (h : F) (guess : SMat s n F)
    (scale : Vec n F) (LUs : Fin s → LU) : ColResult s n F :=
  if cfg.unknown_velocities then
    solve_collocation_system2 prm tab t y h guess scale cfg.newton_tol LUs
      cfg.newton_max_iter
  else
    solve_collocation_system prm tab t y h guess scale cfg.newton_tol LUs
      cfg.newton_max_iter

/-- Result of the inner solve loop: the last collocation result and the
factorizations, Jacobian pair and validity flag in force afterwards. -/
structure InnerOut (s n : ℕ) (F LU : Type) where
  res : ColResult s n F
  LUs : Fin s → LU
  current_jac : Bool
  Jy : NMat n F
  Jyp : NMat n F
  deriving DecidableEq

/-- The factorizations in force at the first solve of the inner loop:
the cached ones when present, else freshly built (source lines 627-632). -/
def innerLUs1 (prm : Prims s n F LU) (tab : Tableau s F)
    (cfg : Config n F) (h : F) (Jy Jyp : NMat n F)
    (LUs0 : Option (Fin s → LU)) : Fin s → LU :=
  match LUs0 with
  | some l => l
  | none => buildLUs prm tab cfg h Jy Jyp

/-- The Jacobian recompute of the inner loop (source line 647),
`self.jac(t, y, yp)`; the `none` fallback is unreachable in the source,
since a stale Jacobian implies a provider exists. -/
def jacOrKeep (prm : Prims s n F LU) (t : F) (y yp : Vec n F)
    (Jy Jyp : NMat n F) : NMat n F × NMat n F :=
  match prm.jac with
  | some jf => jf t y yp
  | none => (Jy, Jyp)

/-- The inner solve loop of `_step_impl` (source lines 626-649): build or
reuse the factorizations and run the collocation solve; on
non-convergence with a stale Jacobian, recompute the Jacobian at
`(t, y, yp)`, mark it current, rebuild the factorizations at the same
step, and solve once more (a second failure exits, since the Jacobian is
then current). -/
def innerSolve (prm : Prims s n F LU) (tab : Tableau s F)
    (cfg : Config n F) (t : F) (y yp : Vec n F) (h : F)
    (guess : SMat s n F) (scale : Vec n F)
    (LUs0 : Option (Fin s → LU)) (current_jac : Bool)
    (Jy Jyp : NMat n F) : InnerOut s n F LU :=
  let LUs1 := innerLUs1 prm tab cfg h Jy Jyp LUs0
  let r1 := runStrategy prm tab cfg t y h guess scale LUs1
  if r1.converged then ⟨r1, LUs1, current_jac, Jy, Jyp⟩
  else if current_jac then ⟨r1, LUs1, current_jac, Jy, Jyp⟩
  else
    let JJ := jacOrKeep prm t y yp Jy Jyp
    let LUs2 := buildLUs prm tab cfg h JJ.1 JJ.2
    ⟨runStrategy prm tab cfg t y h guess scale LUs2, LUs2, true, JJ.1, JJ.2⟩

/-- The safety factor applied to the predicted step factor (source line
704): `0.9·(2·newton_max_iter + 1)/(2·newton_max_iter + n_iter)`. -/
def step_safety (N n_iter : ℕ) : F :=
  (9 / 10) * (2 * (N : F) + 1) / (2 * (N : F) + (n_iter : F))

/-- The fixed-point refinement of the `newton_iter_embedded ≥ 2` embedded
error (source lines 685-693), under the increments strategy; `glast` is
`gammas[-1]`. -/
def embeddedNewtonLoop (prm : Prims s n F LU) (tab : Tableau s F)
    (t_new h glast : F) (y yp : Vec n F) (Yp : SMat s n F) (LUlast : LU) :
    ℕ → Vec n F → Vec n F
  | 0, y_hat => y_hat
  | m + 1, y_hat =>
    let yp_hat := fun j =>
      ((y_hat j - y j) / h - tab.b0 * yp j
        - ∑ i, tab.b_hat i * Yp i j) / glast
    let Fv := prm.fn t_new y_hat yp_hat
    embeddedNewtonLoop prm tab t_new h glast y yp Yp LUlast m
      (fun j => y_hat j - prm.solve_lu LUlast Fv j)

/-- The embedded error estimate of a converged attempt (source lines
665-695), by the three configured strategies: the closed-form explicit
formula for 0 embedded iterations, one linear correction through the last
block's factorization for 1 iteration, and the `≥ 2`-iteration fixed-point
refinement — which raises `NotImplementedError` (modelled as `none`) under
the derivatives-as-unknowns strategy. -/
def errorEstimate {sm : ℕ} (prm : Prims (sm + 1) n F LU)
    (tab : Tableau (sm + 1) F) (cfg : Config n F) (t_new h : F)
    (y yp : Vec n F) (Y Yp : SMat (sm + 1) n F)
    (LUs : Fin (sm + 1) → LU) : Option (Vec n F) :=
  let y_new := Y (Fin.last sm)
  let glast := tab.gammas (Fin.last sm)
  if cfg.newton_iter_embedded = 0 then
    some (fun j => h * (yp j * glast + ∑ i, tab.v2 i * Yp i j))
  else if cfg.newton_iter_embedded = 1 then
    let yp_hat_new := fun j =>
      ((∑ i, tab.v i * Yp i j) - tab.b0 * yp j) / glast
    let Fv := prm.fn t_new y_new yp_hat_new
    if cfg.unknown_velocities then
      some (fun j => -(h * glast * prm.solve_lu (LUs (Fin.last sm)) Fv j))
    else
      some (fun j => -prm.solve_lu (LUs (Fin.last sm)) Fv j)
  else
    if cfg.unknown_velocities then none
    else
      let y_hat := embeddedNewtonLoop prm tab t_new h glast y yp Yp
        (LUs (Fin.last sm)) cfg.newton_iter_embedded y_new
      some (fun j => y_hat j - y_new j)

/-- The mixed, scale-normalized scalar error of a converged attempt
(source lines 659-702): `error = w·|continuous|^((s+1)/s) +
(1−w)·|embedded|` with the continuous collocation error
`y − P2[0]·Y`, normalized by `atol + max(|y|, |y_new|)·rtol` and reduced
by the RMS norm primitive. -/
def mixedErrorNorm {sm : ℕ} (prm : Prims (sm + 1) n F LU)
    (tab : Tableau (sm + 1) F) (cfg : Config n F) (y : Vec n F)
    (Y : SMat (sm + 1) n F) (err_emb : Vec n F) : F :=
  let y_new := Y (Fin.last sm)
  let scale2 := fun j => cfg.atol j + max |y j| |y_new j| * cfg.rtol
  let error_collocation := fun j => y j - ∑ i, tab.P2 0 i * Y i j
  let error := fun j =>
    cfg.continuous_error_weight
        * prm.powF |error_collocation j| (((sm : F) + 2) / ((sm : F) + 1))
      + (1 - cfg.continuous_error_weight) * |err_emb j|
  prm.normV (fun j => error j / scale2 j)

/-- Data carried out of an accepted attempt into the post-acceptance
section of `_step_impl`. -/
structure AcceptData (sm n : ℕ) (F LU : Type) where
  h_abs : F
  h : F
  t_new : F
  Y : SMat (sm + 1) n F
  Yp : SMat (sm + 1) n F
  Z : SMat (sm + 1) n F
  n_iter : ℕ
  rate : Option F
  error_norm : F
  safety : F
  factor : Option F
  LUs : Fin (sm + 1) → LU
  current_jac : Bool
  Jy : NMat n F
  Jyp : NMat n F
  deriving DecidableEq

/-- Outcome of one iteration of the outer `while not step_accepted` loop:
terminal failure, a retry with updated loop-local state, acceptance, or
the `NotImplementedError` of the unsupported embedded-error branch. -/
inductive Attempt (sm n : ℕ) (F LU : Type) where
  | tooSmall
  | retry (h_abs : F) (factor : Option F)
      (LUs : Option (Fin (sm + 1) → LU)) (current_jac : Bool)
      (Jy Jyp : NMat n F)
  | accept (d : AcceptData sm n F LU)
  | notImpl
  deriving DecidableEq

/-- One iteration of the outer loop of `_step_impl` (source lines
600-711): the `min_step` failure guard, the `t_bound` clipping, the stage
guess, the inner solve loop, the step halving on non-convergence, the
error estimation and the accept/reject decision with the
`safety·predict_factor` shrink on rejection. -/
def attemptBody {sm : ℕ} (prm : Prims (sm + 1) n F LU)
    (tab : Tableau (sm + 1) F) (cfg : Config n F) (t : F) (y yp : Vec n F)
    (min_step : F) (h_abs_old error_norm_old : Option F)
    (sol : Option (RadauDenseOutput n (sm + 1) F)) (h_abs : F)
    (factor : Option F) (LUs0 : Option (Fin (sm + 1) → LU))
    (current_jac : Bool) (Jy Jyp : NMat n F) : Attempt sm n F LU :=
  if h_abs < min_step then .tooSmall else
  let h := (clipT cfg t h_abs).2
  let t_new := (clipT cfg t h_abs).1
  let habs := |h|
  let guess := stageGuess cfg tab sol t h y
  let scale := scaleOf cfg y
  let inner := innerSolve prm tab cfg t y yp h guess scale LUs0
    current_jac Jy Jyp
  if ¬ inner.res.converged then
    .retry (habs * (1 / 2)) factor none inner.current_jac inner.Jy inner.Jyp
  else
    match errorEstimate prm tab cfg t_new h y yp inner.res.Y inner.res.Yp
        inner.LUs with
    | none => .notImpl
    | some err_emb =>
      let error_norm := mixedErrorNorm prm tab cfg y inner.res.Y err_emb
      let safety := step_safety cfg.newton_max_iter inner.res.n_iter
      if error_norm > 1 then
        let f := predict_factor prm.atanF prm.powF habs h_abs_old
          error_norm error_norm_old (sm + 1)
        .retry (habs * (safety * f)) (some f) none inner.current_jac
          inner.Jy inner.Jyp
      else
        .accept ⟨habs, h, t_new, inner.res.Y, inner.res.Yp, inner.res.Z,
          inner.res.n_iter, inner.res.rate, error_norm, safety, factor,
          inner.LUs, inner.current_jac, inner.Jy, inner.Jyp⟩

/-- Outcome of the whole outer loop. -/
inductive StepLoopOut (sm n : ℕ) (F LU : Type) where
  | tooSmall
  | notImpl
  | accepted (d : AcceptData sm n F LU)
  | noFuel
  deriving DecidableEq

/-- The outer `while not step_accepted` loop of `_step_impl`, recursing on
a fuel bound (the loop itself has no intrinsic bound; every claim below is
conditional on the loop producing a result). -/
def stepLoop {sm : ℕ} (prm : Prims (sm + 1) n F LU)
    (tab : Tableau (sm + 1) F) (cfg : Config n F) (t : F) (y yp : Vec n F)
    (min_step : F) (h_abs_old error_norm_old : Option F)
    (sol : Option (RadauDenseOutput n (sm + 1) F)) :
    ℕ → F → Option F → Option (Fin (sm + 1) → LU) → Bool →
      NMat n F → NMat n F → StepLoopOut sm n F LU
  | 0, _, _, _, _, _, _ => .noFuel
  | fuel + 1, h_abs, factor, LUs0, current_jac, Jy, Jyp =>
    match attemptBody prm tab cfg t y yp min_step h_abs_old error_norm_old
        sol h_abs factor LUs0 current_jac Jy Jyp with
    | .tooSmall => .tooSmall
    | .notImpl => .notImpl
    | .accept d => .accepted d
    | .retry h' f' L' c' Jy' Jyp' =>
      stepLoop prm tab cfg t y yp min_step h_abs_old error_norm_old sol
        fuel h' f' L' c' Jy' Jyp'

/-- The post-acceptance Jacobian-recompute trigger (source lines
714-718): a Jacobian evaluator exists, more than 2 Newton iterations were
used, and the last rate exceeds the configured threshold. -/
def recomputeJacB {sm : ℕ} (prm : Prims (sm + 1) n F LU)
    (cfg : Config n F) (d : AcceptData sm n F LU) : Bool :=
  prm.jac.isSome && decide (2 < d.n_iter)
    && decide (cfg.jac_recompute_rate < d.rate.getD 0)

/-- The post-acceptance step factor (source lines 720-722): the factor
stored by the last rejection if one occurred, otherwise
`safety·predict_factor` at the accepted attempt's values. -/
def postFactor {sm : ℕ} (prm : Prims (sm + 1) n F LU) (cfg : Config n F)
    (h_abs_old error_norm_old : Option F) (d : AcceptData sm n F LU) : F :=
  match d.factor with
  | some f => f
  | none => d.safety * predict_factor prm.atanF prm.powF d.h_abs h_abs_old
      d.error_norm error_norm_old (sm + 1)

/-- The post-acceptance section of `_step_impl` (source lines 713-763):
deadband hysteresis on the step factor, Jacobian recompute/invalidations,
and the persistent-state update including the dense-output rebuild.  `st`
is the pre-step persistent state, whose untouched `h_abs` field is
persisted into `h_abs_old`. -/
def postAccept {sm : ℕ} (prm : Prims (sm + 1) n F LU)
    (tab : Tableau (sm + 1) F) (cfg : Config n F)
    (st : StepState (sm + 1) n F LU)
    (h_abs_old error_norm_old : Option F) (d : AcceptData sm n F LU) :
    StepState (sm + 1) n F LU :=
  let y_new := d.Y (Fin.last sm)
  let yp_new := d.Yp (Fin.last sm)
  let recompute_jac := recomputeJacB prm cfg d
  let factor1 := postFactor prm cfg h_abs_old error_norm_old d
  let inDeadband := ¬ recompute_jac = true
    ∧ cfg.controller_deadband.1 ≤ factor1
    ∧ factor1 ≤ cfg.controller_deadband.2
  let factor2 := if inDeadband then (1 : F) else factor1
  let LUs2 := if inDeadband then some d.LUs else none
  let JJ := if recompute_jac then
      (match prm.jac with
       | some jf => jf d.t_new y_new yp_new
       | none => (d.Jy, d.Jyp))
    else (d.Jy, d.Jyp)
  let cj2 := if recompute_jac then true
    else if prm.jac.isSome then false
    else d.current_jac
  { t := d.t_new
    y := y_new
    yp := yp_new
    h_abs := d.h_abs * factor2
    h_abs_old := some st.h_abs
    error_norm_old := some d.error_norm
    Jy := JJ.1
    Jyp := JJ.2
    LUs := LUs2
    current_jac := cj2
    sol := some (compute_dense_output st.t d.t_new st.y st.yp d.Y d.Yp
      tab.P)
    t_old := some st.t
    y_old := st.y
    yp_old := st.yp
    Zs := some d.Z
    Ys := some d.Y
    Yps := some d.Yp }

/-- Result of one `_step_impl` call: the distinguished failure (with the
unchanged persistent state), success with the updated persistent state,
the raised `NotImplementedError`, or fuel exhaustion of the model. -/
inductive StepResult (s n : ℕ) (F LU : Type) where
  | failure (msg : String) (st : StepState s n F LU)
  | success (st : StepState s n F LU)
  | raisedNotImplemented
  | noFuel
  deriving DecidableEq

/-- Dispatch of the outer-loop outcome into the `_step_impl` result:
the `too small step` failure leaves the persistent state `st` untouched,
acceptance runs the post-acceptance update. -/
def stepFinish {sm : ℕ} (prm : Prims (sm + 1) n F LU)
    (tab : Tableau (sm + 1) F) (cfg : Config n F)
    (st : StepState (sm + 1) n F LU)
    (h_abs_old error_norm_old : Option F) :
    StepLoopOut sm n F LU → StepResult (sm + 1) n F LU
  | .noFuel => .noFuel
  | .tooSmall => .failure TOO_SMALL_STEP st
  | .notImpl => .raisedNotImplemented
  | .accepted d =>
    .success (postAccept prm tab cfg st h_abs_old error_norm_old d)

/-- Embedding of `PTIRKDAE._step_impl` (source lines 553-763): entry
clamp, the outer attempt loop, and the post-acceptance persistent-state
update.  Failure returns `(False, TOO_SMALL_STEP)` with the persistent
state untouched; success returns `(True, None)` with the updated state. -/
def step_impl {sm : ℕ} (prm : Prims (sm + 1) n F LU)
    (tab : Tableau (sm + 1) F) (cfg : Config n F) (fuel : ℕ)
    (st : StepState (sm + 1) n F LU) : StepResult (sm + 1) n F LU :=
  let min_step := minStepOf prm cfg st.t
  let ent := stepEntryClamp st.h_abs cfg.max_step min_step st.h_abs_old
    st.error_norm_old
  stepFinish prm tab cfg st ent.2.1 ent.2.2
    (stepLoop prm tab cfg st.t st.y st.yp min_step ent.2.1 ent.2.2
      st.sol fuel ent.1 none st.LUs st.current_jac st.Jy st.Jyp)

/-- A concrete scalar instance (one stage, one equation, rationals) whose
residual is identically zero, so that the very first Newton correction has
norm exactly zero. -/
def cPrim : Prims 1 1 ℚ Unit where
  fn := fun _ _ _ => fun _ => 0
  finOK := fun _ => true
  normS := fun X => |X 0 0|
  normV := fun v => |v 0|
  lu := fun _ => ()
  solve_lu := fun _ v => v
  jac := none
  spacing := fun _ _ => 1
  atanF := id
  powF := fun _ _ => 1

/-- Extract the state of a success result (default otherwise). -/
def StepResult.getSuccess (r : StepResult s n F LU)
    (dflt : StepState s n F LU) : StepState s n F LU :=
  match r with
  | .success st => st
  | _ => dflt

/-- A concrete configuration for the scalar instance: one Newton
iteration, explicit (0-iteration) embedded error, derivatives strategy. -/
def wCfg : Config 1 ℚ where
  t_bound := 100
  direction := 1
  max_step := 50
  rtol := 0
  atol := fun _ => 1
  newton_tol := 1
  newton_max_iter := 1
  continuous_error_weight := 0
  jac_recompute_rate := 1 / 2
  controller_deadband := (1, 6 / 5)
  newton_iter_embedded := 0
  unknown_velocities := true

/-- All-ones tableau data for the concrete scalar instance. -/
def cTab : Tableau 1 ℚ where
  gammas := fun _ => 1
  c := fun _ => 1
  T := fun _ _ => 1
  TI := fun _ _ => 1
  A := fun _ _ => 1
  A_inv := fun _ _ => 1
  v := fun _ => 1
  v2 := fun _ => 1
  b_hat := fun _ => 1
  b0 := 1
  P := fun _ _ => 1
  P2 := fun _ _ => 1

/-- A residual constantly 1: the scalar Newton iteration never converges
(every correction has norm 1). -/
def wPrimBad : Prims 1 1 ℚ Unit :=
  { cPrim with fn := fun _ _ _ => fun _ => 1 }

/-- The never-converging residual together with a Jacobian provider
returning the constant pair (5, 7). -/
def wPrimBadJ : Prims 1 1 ℚ Unit :=
  { wPrimBad with
    jac := some (fun _ _ _ => (fun _ _ => 5, fun _ _ => 7)) }

/-- A primitive pack whose finiteness check always fails, modelling a
residual that evaluates to NaN/inf immediately. -/
def wPrimInf : Prims 1 1 ℚ Unit :=
  { cPrim with finOK := fun _ => false }

/-- The zero-residual primitives with a small floating-point spacing, so
that a unit step is well inside `[min_step, max_step]`. -/
def wPrimGood : Prims 1 1 ℚ Unit :=
  { cPrim with spacing := fun _ _ => 1 / 100 }

/-- The zero-residual primitives with a power primitive that returns 0,
driving the rejected step magnitude to 0 (below `min_step = 10`). -/
def wPrimFail : Prims 1 1 ℚ Unit :=
  { cPrim with powF := fun _ _ => 0 }

/-- A concrete persistent state at `t = 0` with a unit step magnitude and
a stored previous (step, error-norm) pair. -/
def wState : StepState 1 1 ℚ Unit where
  t := 0
  y := fun _ => 0
  yp := fun _ => 0
  h_abs := 1
  h_abs_old := some 7
  error_norm_old := some (1 / 3)
  Jy := fun _ _ => 0
  Jyp := fun _ _ => 0
  LUs := none
  current_jac := true
  sol := none
  t_old := none
  y_old := fun _ => 0
  yp_old := fun _ => 0
  Zs := none
  Ys := none
  Yps := none

/-- The state `wState` with a large step magnitude and a unit stored
derivative, so the embedded error rejects the first attempt. -/
def wStateF : StepState 1 1 ℚ Unit :=
  { wState with h_abs := 20, yp := fun _ => 1 }

/-- Accepted-attempt data whose stored rejection factor 1 lies inside the
default deadband. -/
def wdIn : AcceptData 0 1 ℚ Unit where
  h_abs := 1
  h := 1
  t_new := 1
  Y := fun _ _ => 0
  Yp := fun _ _ => 0
  Z := fun _ _ => 0
  n_iter := 1
  rate := none
  error_norm := 0
  safety := 1
  factor := some 1
  LUs := fun _ => ()
  current_jac := true
  Jy := fun _ _ => 0
  Jyp := fun _ _ => 0

/-- Accepted-attempt data whose stored rejection factor 2 lies outside
the default deadband. -/
def wdOut : AcceptData 0 1 ℚ Unit :=
  { wdIn with factor := some 2 }

end PTIRK

namespace PTIRK

variable {F : Type} [LinearOrderedField F] {s n : ℕ} {LU : Type}

/-- C1: the spec (and the solver's own docstring, "Only odd number of
stages are allowed", with documented default 3) requires an odd positive
stage count, but the constructor's validation `assert stages % 2 == 0`
accepts exactly the even integers: it rejects the odd value 3, accepts the
even value 4 (the actual default), rejects every odd integer, and even
accepts the non-positive value 0. -/
theorem stages_validation_accepts_even_rejects_odd :
    stages_validation 3 = false ∧ stages_validation 4 = true ∧
    (∀ k : ℤ, stages_validation (2 * k + 1) = false) ∧
    stages_validation 0 = true := by
  refine ⟨by decide, by decide, ?_, by decide⟩
  intro k
  simp only [stages_validation, beq_eq_false_iff_ne, ne_eq]
  omega

/-- C6: `predict_factor` computes `1 + κ·atan((f − 1)/κ)` with `κ = 1` and
`f = min(1, multiplier)·e^(−1/(s+1))`, where the multiplier is
`(h/h_old)·(e_old/e)^(1/(s+1))` when both previous values are present and
`e ≠ 0`, and `1` when either previous value is absent or `e = 0`; with no
previous data the pre-limiter value is exactly `e^(−1/(s+1))`, and the
arctan limiter strictly bounds the result below `1 + π/2`. -/
theorem predict_factor_formula (h : ℝ) (hao : ℝ) (e : ℝ) (eo : ℝ) (s : ℕ) :
    (e ≠ 0 →
      predict_factor Real.arctan (fun a b => a ^ b) h (some hao) e (some eo) s
        = 1 + Real.arctan
            (min 1 (h / hao * (eo / e) ^ (1 / ((s : ℝ) + 1)))
              * e ^ (-(1 / ((s : ℝ) + 1))) - 1)) ∧
    (predict_factor Real.arctan (fun a b => a ^ b) h none e none s
        = 1 + Real.arctan (e ^ (-(1 / ((s : ℝ) + 1))) - 1)) ∧
    (predict_factor Real.arctan (fun a b => a ^ b) h (some hao) 0 (some eo) s
        = 1 + Real.arctan ((0 : ℝ) ^ (-(1 / ((s : ℝ) + 1))) - 1)) ∧
    (∀ (hao' : Option ℝ) (eo' : Option ℝ),
      predict_factor Real.arctan (fun a b => a ^ b) h hao' e eo' s
        < 1 + Real.pi / 2) := by
  refine ⟨?_, ?_, ?_, ?_⟩
  · intro he
    simp [predict_factor, KAPPA, he]
  · simp [predict_factor, KAPPA]
  · simp [predict_factor, KAPPA]
  · intro hao' eo'
    have key : ∀ x : ℝ, (1 : ℝ) + KAPPA * Real.arctan ((x - 1) / KAPPA)
        < 1 + Real.pi / 2 := by
      intro x
      have hb := Real.arctan_lt_pi_div_two ((x - 1) / KAPPA)
      simp only [KAPPA] at hb ⊢
      linarith
    exact key _

/-- Witness for C6 at concrete inputs `h = 1, h_old = 1, e = 1, e_old = 1,
s = 3` (first conjunct, hypothesis `e ≠ 0` discharged by `norm_num`). -/
theorem predict_factor_formula_witness :
    predict_factor Real.arctan (fun a b => a ^ b) 1 (some 1) 1 (some 1) 3
      = 1 + Real.arctan
          (min 1 ((1 : ℝ) / 1 * ((1 : ℝ) / 1) ^ (1 / ((3 : ℝ) + 1)))
            * (1 : ℝ) ^ (-(1 / ((3 : ℝ) + 1))) - 1) :=
  (predict_factor_formula 1 1 1 1 3).1 (by norm_num)

/-- Helper: the increments-strategy Newton loop implements the (amended)
two-stage heuristic on its induced correction stream, for every loop
state. -/
theorem colLoop1_eq_newtonPolicy (prm : Prims s n F LU) (tab : Tableau s F)
    (t : F) (y : Vec n F) (h : F) (scale : Vec n F) (tol : F)
    (LUs : Fin s → LU) (max_iter : ℕ) :
    ∀ (m k : ℕ) (W Z Y Yp : SMat s n F) (nuOld rate0 : Option F),
      (colLoop1 prm tab t y h scale tol LUs max_iter
          m k W Z Y Yp nuOld rate0).policyView
        = newtonPolicy (colStep1 prm tab t y h scale LUs) tol max_iter
            m k ⟨W, Z, Y, Yp⟩ nuOld rate0 := by
  intro m
  induction m with
  | zero => intro k W Z Y Yp nuOld rate0; rfl
  | succ m ih =>
    intro k W Z Y Yp nuOld rate0
    simp only [colLoop1, newtonPolicy, colStep1]
    cases hc : colCorr1 prm tab t h scale LUs Y Yp with
    | none => simp [hc, ColResult.policyView]
    | some p =>
      obtain ⟨dW, nu⟩ := p
      simp only [hc, Option.map_some']
      cases nuOld with
      | none =>
        cases hdiv : divergeB tol (max_iter - k) rate0 nu with
        | true => simp [hdiv, ColResult.policyView]
        | false =>
          cases hconv : convergeB tol rate0 nu with
          | true => simp [hdiv, hconv, ColResult.policyView]
          | false => simp [hdiv, hconv, ih]
      | some nuo =>
        cases hdiv : divergeB tol (max_iter - k) (some (nu / nuo)) nu with
        | true => simp [hdiv, ColResult.policyView]
        | false =>
          cases hconv : convergeB tol (some (nu / nuo)) nu with
          | true => simp [hdiv, hconv, ColResult.policyView]
          | false => simp [hdiv, hconv, ih]

/-- Helper: the derivatives-strategy Newton loop implements the (amended)
two-stage heuristic on its induced correction stream, for every loop
state. -/
theorem colLoop2_eq_newtonPolicy (prm : Prims s n F LU) (tab : Tableau s F)
    (t : F) (y : Vec n F) (h : F) (scale : Vec n F) (tol : F)
    (LUs : Fin s → LU) (max_iter : ℕ) :
    ∀ (m k : ℕ) (Y Yp : SMat s n F) (nuOld rate0 : Option F),
      (colLoop2 prm tab t y h scale tol LUs max_iter
          m k Y Yp nuOld rate0).policyView
        = newtonPolicy (colStep2 prm tab t h scale LUs) tol max_iter
            m k (Y, Yp) nuOld rate0 := by
  intro m
  induction m with
  | zero => intro k Y Yp nuOld rate0; rfl
  | succ m ih =>
    intro k Y Yp nuOld rate0
    simp only [colLoop2, newtonPolicy, colStep2]
    cases hc : colCorr2 prm tab t h scale LUs Y Yp with
    | none => simp [hc, ColResult.policyView]
    | some p =>
      obtain ⟨⟨Yn, Ypn⟩, nu⟩ := p
      simp only [hc]
      cases nuOld with
      | none =>
        cases hdiv : divergeB tol (max_iter - k) rate0 nu with
        | true => simp [hdiv, ColResult.policyView]
        | false =>
          cases hconv : convergeB tol rate0 nu with
          | true => simp [hdiv, hconv, ColResult.policyView]
          | false => simp [hdiv, hconv, ih]
      | some nuo =>
        cases hdiv : divergeB tol (max_iter - k) (some (nu / nuo)) nu with
        | true => simp [hdiv, ColResult.policyView]
        | false =>
          cases hconv : convergeB tol (some (nu / nuo)) nu with
          | true => simp [hdiv, hconv, ColResult.policyView]
          | false => simp [hdiv, hconv, ih]

/-- C3 (amended): for every residual function, initial guess, tolerance
and iteration budget, both collocation strategies implement the two-stage
heuristic exactly, amended in one point: the exactly-zero convergence
check applies after every correction including the first, while the
rate-based divergence and convergence checks apply only from the second
correction onward (rate = ‖correction‖/‖previous correction‖; stop
unconverged if rate ≥ 1 or rate^(max_iter−k)/(1−rate)·‖correction‖ > tol,
stop converged if the correction norm is exactly zero or
rate/(1−rate)·‖correction‖ < tol; a non-finite residual evaluation or an
exhausted budget yields unconverged). -/
theorem collocation_two_stage_heuristic (prm : Prims s n F LU)
    (tab : Tableau s F) (t : F) (y : Vec n F) (h : F) (scale : Vec n F)
    (tol : F) (LUs : Fin s → LU) (max_iter : ℕ) (Z0 Yp0 : SMat s n F) :
    (solve_collocation_system prm tab t y h Z0 scale tol LUs
        max_iter).policyView
      = newtonPolicy (colStep1 prm tab t y h scale LUs) tol max_iter
          max_iter 0 (colEntry1 tab y h Z0) none none ∧
    (solve_collocation_system2 prm tab t y h Yp0 scale tol LUs
        max_iter).policyView
      = newtonPolicy (colStep2 prm tab t h scale LUs) tol max_iter
          max_iter 0 (colEntry2 tab y h Yp0) none none := by
  constructor
  · exact colLoop1_eq_newtonPolicy prm tab t y h scale tol LUs max_iter
      max_iter 0 _ _ _ _ none none
  · exact colLoop2_eq_newtonPolicy prm tab t y h scale tol LUs max_iter
      max_iter 0 _ _ none none

/-- C3 counterexample: with a residual that is identically zero, the first
correction has norm exactly zero and the source loop stops converged after
one iteration — i.e. a convergence check did run after the first
correction — while the policy exactly as the claim words it ("no
convergence/divergence check after the first correction") would take a
second iteration. -/
theorem collocation_first_correction_check_refuted :
    (solve_collocation_system cPrim cTab 0 (fun _ => 0) 1 (fun _ _ => 0)
        (fun _ => 1) 1 (fun _ => ()) 2).policyView
      ≠ newtonPolicyLiteral
          (colStep1 cPrim cTab 0 (fun _ => 0) 1 (fun _ => 1) (fun _ => ()))
          1 2 2 0 (colEntry1 cTab (fun _ => 0) 1 (fun _ _ => 0))
          none none := by
  have h1 : (solve_collocation_system cPrim cTab 0 (fun _ => 0) 1
      (fun _ _ => 0) (fun _ => 1) 1 (fun _ => ()) 2).policyView
      = ⟨true, 1, none⟩ := by
    norm_num [solve_collocation_system, colEntry1, colLoop1, colCorr1,
      stageResiduals, cPrim, cTab, stageMul, colUpdate1, divergeB,
      convergeB, ColResult.policyView, Fin.sum_univ_one]
  have h2 : newtonPolicyLiteral
      (colStep1 cPrim cTab 0 (fun _ => 0) 1 (fun _ => 1) (fun _ => ()))
      1 2 2 0 (colEntry1 cTab (fun _ => 0) 1 (fun _ _ => 0)) none none
      = ⟨true, 2, some 0⟩ := by
    norm_num [newtonPolicyLiteral, colStep1, colCorr1, stageResiduals,
      colEntry1, cPrim, cTab, stageMul, colUpdate1, divergeB, convergeB,
      Fin.sum_univ_one]
  rw [h1, h2]
  simp

/-- C2 (amended): for every dense-output snapshot with at least one
coefficient column, evaluation exactly at `t_old` returns the stored
previous state `y_old`, and the returned derivative is the derivative of
the same interpolation polynomial at `t_old`, namely the first coefficient
column of `Q` divided by `h` — not, in general, the stored previous
derivative `yp_old`. -/
theorem dense_output_at_t_old {n m : ℕ} (D : RadauDenseOutput n (m + 1) F) :
    (D.callImpl D.t_old).1 = D.y_old ∧
    (D.callImpl D.t_old).2 = fun i => D.Q i 0 * (1 / D.h) := by
  have hx : (D.t_old - D.t_old) / D.h = 0 := by simp
  constructor
  · funext i
    simp [RadauDenseOutput.callImpl, hx]
  · funext i
    simp only [RadauDenseOutput.callImpl, hx]
    rw [Finset.sum_eq_single (0 : Fin (m + 1))]
    · norm_num
    · intro b _ hb
      have hbn : (b : ℕ) ≠ 0 := by
        intro hc
        exact hb (Fin.ext (by simpa using hc))
      rw [zero_pow hbn]
      ring
    · intro habs
      exact absurd (Finset.mem_univ _) habs

/-- Helper: an attempt returns the terminal `tooSmall` outcome exactly
when its working step magnitude is below `min_step`. -/
theorem attemptBody_tooSmall_iff {sm : ℕ} (prm : Prims (sm + 1) n F LU)
    (tab : Tableau (sm + 1) F) (cfg : Config n F) (t : F) (y yp : Vec n F)
    (min_step : F) (hao eno : Option F)
    (sol : Option (RadauDenseOutput n (sm + 1) F)) (h_abs : F)
    (factor : Option F) (LUs0 : Option (Fin (sm + 1) → LU)) (cj : Bool)
    (Jy Jyp : NMat n F) :
    attemptBody prm tab cfg t y yp min_step hao eno sol h_abs factor LUs0
        cj Jy Jyp = .tooSmall ↔ h_abs < min_step := by
  constructor
  · intro hEq
    by_contra hlt
    simp only [attemptBody] at hEq
    rw [if_neg hlt] at hEq
    split at hEq
    · exact Attempt.noConfusion hEq
    · split at hEq
      · exact Attempt.noConfusion hEq
      · split at hEq
        · exact Attempt.noConfusion hEq
        · exact Attempt.noConfusion hEq
  · intro hlt
    simp only [attemptBody]
    rw [if_pos hlt]

/-- Helper: an accepted attempt carries an error norm at most 1. -/
theorem attemptBody_accept_error_le {sm : ℕ} (prm : Prims (sm + 1) n F LU)
    (tab : Tableau (sm + 1) F) (cfg : Config n F) (t : F) (y yp : Vec n F)
    (min_step : F) (hao eno : Option F)
    (sol : Option (RadauDenseOutput n (sm + 1) F)) (h_abs : F)
    (factor : Option F) (LUs0 : Option (Fin (sm + 1) → LU)) (cj : Bool)
    (Jy Jyp : NMat n F) (d : AcceptData sm n F LU)
    (hEq : attemptBody prm tab cfg t y yp min_step hao eno sol h_abs
      factor LUs0 cj Jy Jyp = .accept d) : d.error_norm ≤ 1 := by
  simp only [attemptBody] at hEq
  split at hEq
  · exact Attempt.noConfusion hEq
  · split at hEq
    · exact Attempt.noConfusion hEq
    · split at hEq
      · exact Attempt.noConfusion hEq
      · split at hEq
        · exact Attempt.noConfusion hEq
        · rename_i hgt
          injection hEq with hd
          rw [← hd]
          exact le_of_not_lt hgt

/-- Helper: the outer loop accepts only attempts whose error norm is at
most 1. -/
theorem stepLoop_accept_error_le {sm : ℕ} (prm : Prims (sm + 1) n F LU)
    (tab : Tableau (sm + 1) F) (cfg : Config n F) (t : F) (y yp : Vec n F)
    (min_step : F) (hao eno : Option F)
    (sol : Option (RadauDenseOutput n (sm + 1) F)) :
    ∀ (fuel : ℕ) (h_abs : F) (factor : Option F)
      (LUs0 : Option (Fin (sm + 1) → LU)) (cj : Bool) (Jy Jyp : NMat n F)
      (d : AcceptData sm n F LU),
      stepLoop prm tab cfg t y yp min_step hao eno sol fuel h_abs factor
        LUs0 cj Jy Jyp = .accepted d → d.error_norm ≤ 1 := by
  intro fuel
  induction fuel with
  | zero =>
    intro h_abs factor LUs0 cj Jy Jyp d hEq
    exact StepLoopOut.noConfusion hEq
  | succ m ih =>
    intro h_abs factor LUs0 cj Jy Jyp d hEq
    simp only [stepLoop] at hEq
    cases hA : attemptBody prm tab cfg t y yp min_step hao eno sol h_abs
        factor LUs0 cj Jy Jyp with
    | tooSmall =>
      simp only [hA] at hEq
      exact StepLoopOut.noConfusion hEq
    | notImpl =>
      simp only [hA] at hEq
      exact StepLoopOut.noConfusion hEq
    | accept d2 =>
      simp only [hA] at hEq
      injection hEq with hd
      rw [← hd]
      exact attemptBody_accept_error_le prm tab cfg t y yp min_step hao eno
        sol h_abs factor LUs0 cj Jy Jyp d2 hA
    | retry h2 f2 L2 c2 J1 J2 =>
      simp only [hA] at hEq
      exact ih h2 f2 L2 c2 J1 J2 d hEq

/-- Helper: the only failure result of the finish dispatch is the
`too small step` one, with the persistent state untouched. -/
theorem stepFinish_failure {sm : ℕ} (prm : Prims (sm + 1) n F LU)
    (tab : Tableau (sm + 1) F) (cfg : Config n F)
    (st : StepState (sm + 1) n F LU) (hao eno : Option F)
    (r : StepLoopOut sm n F LU) (msg : String)
    (st' : StepState (sm + 1) n F LU) :
    stepFinish prm tab cfg st hao eno r = .failure msg st' →
      msg = TOO_SMALL_STEP ∧ st' = st ∧ r = .tooSmall := by
  cases r with
  | tooSmall =>
    intro h
    injection h with h1 h2
    exact ⟨h1.symm, h2.symm, rfl⟩
  | notImpl => intro h; exact StepResult.noConfusion h
  | accepted d => intro h; exact StepResult.noConfusion h
  | noFuel => intro h; exact StepResult.noConfusion h

/-- Helper: a success result of the finish dispatch comes from an
accepted attempt, through the post-acceptance update. -/
theorem stepFinish_success {sm : ℕ} (prm : Prims (sm + 1) n F LU)
    (tab : Tableau (sm + 1) F) (cfg : Config n F)
    (st : StepState (sm + 1) n F LU) (hao eno : Option F)
    (r : StepLoopOut sm n F LU) (st' : StepState (sm + 1) n F LU) :
    stepFinish prm tab cfg st hao eno r = .success st' →
      ∃ d, r = .accepted d
        ∧ st' = postAccept prm tab cfg st hao eno d := by
  cases r with
  | tooSmall => intro h; exact StepResult.noConfusion h
  | notImpl => intro h; exact StepResult.noConfusion h
  | noFuel => intro h; exact StepResult.noConfusion h
  | accepted d =>
    intro h
    injection h with h1
    exact ⟨d, rfl, h1.symm⟩

/-- C4: when the collocation solve fails to converge, the inner loop with
a fresh (current) Jacobian performs no recompute and returns the failed
result unchanged, after which the engine halves the step magnitude,
invalidates the cached factorizations, and retries; with a stale
Jacobian, the inner loop recomputes the Jacobian at `(t, y, yp)`, marks
it current, rebuilds the factorizations at the same step size, and solves
again before any step change; and the terminal failure outcome arises
exactly from the `min_step` guard, never from non-convergence. -/
theorem newton_nonconvergence_retry {sm : ℕ} (prm : Prims (sm + 1) n F LU)
    (tab : Tableau (sm + 1) F) (cfg : Config n F) (t : F) (y yp : Vec n F)
    (min_step : F) (hao eno : Option F)
    (sol : Option (RadauDenseOutput n (sm + 1) F)) (h_abs h : F)
    (guess : SMat (sm + 1) n F) (scale : Vec n F) (factor : Option F)
    (LUs0 : Option (Fin (sm + 1) → LU)) (Jy Jyp : NMat n F) :
    ((runStrategy prm tab cfg t y h guess scale
        (innerLUs1 prm tab cfg h Jy Jyp LUs0)).converged = false →
      innerSolve prm tab cfg t y yp h guess scale LUs0 true Jy Jyp
        = ⟨runStrategy prm tab cfg t y h guess scale
            (innerLUs1 prm tab cfg h Jy Jyp LUs0),
           innerLUs1 prm tab cfg h Jy Jyp LUs0, true, Jy, Jyp⟩) ∧
    ((runStrategy prm tab cfg t y h guess scale
        (innerLUs1 prm tab cfg h Jy Jyp LUs0)).converged = false →
      innerSolve prm tab cfg t y yp h guess scale LUs0 false Jy Jyp
        = ⟨runStrategy prm tab cfg t y h guess scale
            (buildLUs prm tab cfg h (jacOrKeep prm t y yp Jy Jyp).1
              (jacOrKeep prm t y yp Jy Jyp).2),
           buildLUs prm tab cfg h (jacOrKeep prm t y yp Jy Jyp).1
             (jacOrKeep prm t y yp Jy Jyp).2,
           true, (jacOrKeep prm t y yp Jy Jyp).1,
           (jacOrKeep prm t y yp Jy Jyp).2⟩) ∧
    (∀ cj : Bool,
      (innerSolve prm tab cfg t y yp (clipT cfg t h_abs).2
          (stageGuess cfg tab sol t (clipT cfg t h_abs).2 y)
          (scaleOf cfg y) LUs0 cj Jy Jyp).res.converged = false →
      ¬ h_abs < min_step →
      attemptBody prm tab cfg t y yp min_step hao eno sol h_abs factor
          LUs0 cj Jy Jyp
        = .retry (|(clipT cfg t h_abs).2| * (1 / 2)) factor none
            (innerSolve prm tab cfg t y yp (clipT cfg t h_abs).2
              (stageGuess cfg tab sol t (clipT cfg t h_abs).2 y)
              (scaleOf cfg y) LUs0 cj Jy Jyp).current_jac
            (innerSolve prm tab cfg t y yp (clipT cfg t h_abs).2
              (stageGuess cfg tab sol t (clipT cfg t h_abs).2 y)
              (scaleOf cfg y) LUs0 cj Jy Jyp).Jy
            (innerSolve prm tab cfg t y yp (clipT cfg t h_abs).2
              (stageGuess cfg tab sol t (clipT cfg t h_abs).2 y)
              (scaleOf cfg y) LUs0 cj Jy Jyp).Jyp) ∧
    (∀ cj : Bool,
      attemptBody prm tab cfg t y yp min_step hao eno sol h_abs factor
          LUs0 cj Jy Jyp = .tooSmall ↔ h_abs < min_step) := by
  refine ⟨?_, ?_, ?_, ?_⟩
  · intro hcv
    simp [innerSolve, hcv]
  · intro hcv
    simp [innerSolve, hcv]
  · intro cj hcv hmin
    simp only [attemptBody]
    rw [if_neg hmin]
    simp only [hcv, Bool.false_eq_true, not_false_eq_true, if_pos]
  · intro cj
    exact attemptBody_tooSmall_iff prm tab cfg t y yp min_step hao eno sol
      h_abs factor LUs0 cj Jy Jyp

/-- Witness for C4 at the concrete scalar instance whose residual is
constantly 1: the single budgeted Newton iteration does not converge,
the fresh-Jacobian path returns the failed solve unchanged, the
stale-Jacobian path recomputes and retries at the same step, and the
engine answers with the halved retry. -/
theorem newton_nonconvergence_retry_witness :
    (innerSolve wPrimBad cTab wCfg 0 (fun _ => 0) (fun _ => 0) 1
        (fun _ _ => 0) (fun _ => 1) none true (fun _ _ => 0) (fun _ _ => 0)
      = ⟨runStrategy wPrimBad cTab wCfg 0 (fun _ => 0) 1 (fun _ _ => 0)
          (fun _ => 1)
          (innerLUs1 wPrimBad cTab wCfg 1 (fun _ _ => 0) (fun _ _ => 0)
            none),
         innerLUs1 wPrimBad cTab wCfg 1 (fun _ _ => 0) (fun _ _ => 0) none,
         true, fun _ _ => 0, fun _ _ => 0⟩) ∧
    (innerSolve wPrimBadJ cTab wCfg 0 (fun _ => 0) (fun _ => 0) 1
        (fun _ _ => 0) (fun _ => 1) none false (fun _ _ => 0)
        (fun _ _ => 0)
      = ⟨runStrategy wPrimBadJ cTab wCfg 0 (fun _ => 0) 1 (fun _ _ => 0)
          (fun _ => 1)
          (buildLUs wPrimBadJ cTab wCfg 1
            (jacOrKeep wPrimBadJ 0 (fun _ => 0) (fun _ => 0)
              (fun _ _ => 0) (fun _ _ => 0)).1
            (jacOrKeep wPrimBadJ 0 (fun _ => 0) (fun _ => 0)
              (fun _ _ => 0) (fun _ _ => 0)).2),
         buildLUs wPrimBadJ cTab wCfg 1
           (jacOrKeep wPrimBadJ 0 (fun _ => 0) (fun _ => 0)
             (fun _ _ => 0) (fun _ _ => 0)).1
           (jacOrKeep wPrimBadJ 0 (fun _ => 0) (fun _ => 0)
             (fun _ _ => 0) (fun _ _ => 0)).2,
         true,
         (jacOrKeep wPrimBadJ 0 (fun _ => 0) (fun _ => 0) (fun _ _ => 0)
           (fun _ _ => 0)).1,
         (jacOrKeep wPrimBadJ 0 (fun _ => 0) (fun _ => 0) (fun _ _ => 0)
           (fun _ _ => 0)).2⟩) ∧
    (attemptBody wPrimBad cTab wCfg 0 (fun _ => 0) (fun _ => 0) (1 / 2)
        none none none 1 none none true (fun _ _ => 0) (fun _ _ => 0)
      = .retry (|(clipT wCfg 0 1).2| * (1 / 2)) none none
          (innerSolve wPrimBad cTab wCfg 0 (fun _ => 0) (fun _ => 0)
            (clipT wCfg 0 1).2
            (stageGuess wCfg cTab none 0 (clipT wCfg 0 1).2 (fun _ => 0))
            (scaleOf wCfg (fun _ => 0)) none true (fun _ _ => 0)
            (fun _ _ => 0)).current_jac
          (innerSolve wPrimBad cTab wCfg 0 (fun _ => 0) (fun _ => 0)
            (clipT wCfg 0 1).2
            (stageGuess wCfg cTab none 0 (clipT wCfg 0 1).2 (fun _ => 0))
            (scaleOf wCfg (fun _ => 0)) none true (fun _ _ => 0)
            (fun _ _ => 0)).Jy
          (innerSolve wPrimBad cTab wCfg 0 (fun _ => 0) (fun _ => 0)
            (clipT wCfg 0 1).2
            (stageGuess wCfg cTab none 0 (clipT wCfg 0 1).2 (fun _ => 0))
            (scaleOf wCfg (fun _ => 0)) none true (fun _ _ => 0)
            (fun _ _ => 0)).Jyp) := by
  refine ⟨?_, ?_, ?_⟩
  · exact (newton_nonconvergence_retry wPrimBad cTab wCfg 0 (fun _ => 0)
      (fun _ => 0) (1 / 2) none none none 1 1 (fun _ _ => 0)
      (fun _ => 1) none none (fun _ _ => 0) (fun _ _ => 0)).1
      (by norm_num [runStrategy, innerLUs1, buildLUs,
        solve_collocation_system2, colEntry2, colLoop2, colCorr2,
        stageResiduals, stageMul, divergeB, convergeB, wPrimBad, cPrim,
        cTab, wCfg, Fin.sum_univ_one])
  · exact (newton_nonconvergence_retry wPrimBadJ cTab wCfg 0 (fun _ => 0)
      (fun _ => 0) (1 / 2) none none none 1 1 (fun _ _ => 0)
      (fun _ => 1) none none (fun _ _ => 0) (fun _ _ => 0)).2.1
      (by norm_num [runStrategy, innerLUs1, buildLUs,
        solve_collocation_system2, colEntry2, colLoop2, colCorr2,
        stageResiduals, stageMul, divergeB, convergeB, wPrimBadJ,
        wPrimBad, cPrim, cTab, wCfg, Fin.sum_univ_one])
  · exact (newton_nonconvergence_retry wPrimBad cTab wCfg 0 (fun _ => 0)
      (fun _ => 0) (1 / 2) none none none 1 1 (fun _ _ => 0)
      (fun _ => 1) none none (fun _ _ => 0) (fun _ _ => 0)).2.2.1 true
      (by norm_num [innerSolve, runStrategy, innerLUs1, buildLUs,
        solve_collocation_system2, colEntry2, colLoop2, colCorr2,
        stageResiduals, stageMul, divergeB, convergeB, clipT, stageGuess,
        scaleOf, wPrimBad, cPrim, cTab, wCfg, Fin.sum_univ_one])
      (by norm_num)

/-- C7: a step attempt terminates with the distinguished failure result
and the "too small step" message exactly when the working step magnitude
falls below `min_step`, which is 10 times the local floating-point
spacing at `t` in the integration direction (the `nextafter` distance);
and a failure of `_step_impl` always carries that message with the
persistent state untouched — it is the only condition propagated outward
as a failure. -/
theorem step_too_small_failure {sm : ℕ} (prm : Prims (sm + 1) n F LU)
    (tab : Tableau (sm + 1) F) (cfg : Config n F) (t : F) (y yp : Vec n F)
    (hao eno : Option F) (sol : Option (RadauDenseOutput n (sm + 1) F))
    (h_abs : F) (factor : Option F) (LUs0 : Option (Fin (sm + 1) → LU))
    (cj : Bool) (Jy Jyp : NMat n F) (fuel : ℕ)
    (st st' : StepState (sm + 1) n F LU) (msg : String) :
    (attemptBody prm tab cfg t y yp (minStepOf prm cfg t) hao eno sol
        h_abs factor LUs0 cj Jy Jyp = .tooSmall
      ↔ h_abs < minStepOf prm cfg t) ∧
    (step_impl prm tab cfg fuel st = .failure msg st' →
      msg = TOO_SMALL_STEP ∧ st' = st) ∧
    minStepOf prm cfg t = 10 * |prm.spacing t cfg.direction| := by
  refine ⟨?_, ?_, rfl⟩
  · exact attemptBody_tooSmall_iff prm tab cfg t y yp
      (minStepOf prm cfg t) hao eno sol h_abs factor LUs0 cj Jy Jyp
  · intro hEq
    simp only [step_impl] at hEq
    have h2 := stepFinish_failure prm tab cfg st _ _ _ msg st' hEq
    exact ⟨h2.1, h2.2.1⟩

/-- Helper: concrete failing run — with the power primitive collapsed to
0 the first attempt is rejected, the shrunken magnitude reaches 0, and
the second attempt hits the `min_step = 10` guard. -/
theorem wFail_run :
    step_impl wPrimFail cTab wCfg 2 wStateF
      = .failure TOO_SMALL_STEP wStateF := by
  norm_num [step_impl, stepFinish, stepLoop, attemptBody, minStepOf,
    stepEntryClamp, clipT, scaleOf, stageGuess, innerSolve, innerLUs1,
    buildLUs, runStrategy, solve_collocation_system2, colEntry2, colLoop2,
    colCorr2, stageResiduals, stageMul, divergeB, convergeB, errorEstimate,
    mixedErrorNorm, step_safety, predict_factor, KAPPA, min_def, max_def,
    wPrimFail, cPrim, cTab, wCfg, wStateF, wState, Fin.sum_univ_one]

/-- Witness for C7: the concrete failing run, fed through the theorem. -/
theorem step_too_small_failure_witness :
    step_impl wPrimFail cTab wCfg 2 wStateF
        = .failure TOO_SMALL_STEP wStateF
      ∧ (TOO_SMALL_STEP = TOO_SMALL_STEP ∧ wStateF = wStateF) :=
  ⟨wFail_run,
    (step_too_small_failure wPrimFail cTab wCfg 0 (fun _ => 0)
      (fun _ => 0) none none none 1 none none true (fun _ _ => 0)
      (fun _ _ => 0) 2 wStateF wStateF TOO_SMALL_STEP).2.1 wFail_run⟩

/-- C8: a non-finite residual evaluation makes the collocation iteration
abort immediately with the unconverged flag, without applying the
correction of that iteration, in both strategies; and an unconverged
solve is handled by the step engine as a retry (step shrink with the
Jacobian-refresh logic of the inner loop), never as the terminal failure,
which arises only from the `min_step` guard. -/
theorem nonfinite_residual_local_divergence {sm : ℕ}
    (prm : Prims (sm + 1) n F LU) (tab : Tableau (sm + 1) F)
    (cfg : Config n F) (t : F) (y yp : Vec n F) (h : F) (scale : Vec n F)
    (tol : F) (LUs : Fin (sm + 1) → LU) (max_iter m k : ℕ)
    (W Z Y Yp : SMat (sm + 1) n F) (nuOld rate0 : Option F)
    (min_step : F) (hao eno : Option F)
    (sol : Option (RadauDenseOutput n (sm + 1) F)) (h_abs : F)
    (factor : Option F) (LUs0 : Option (Fin (sm + 1) → LU))
    (Jy Jyp : NMat n F) :
    (prm.finOK (stageResiduals prm tab t h Y Yp) = false →
      colLoop1 prm tab t y h scale tol LUs max_iter (m + 1) k W Z Y Yp
          nuOld rate0
        = ⟨false, k + 1, Y, Yp, Z, rate0⟩) ∧
    (prm.finOK (stageResiduals prm tab t h Y Yp) = false →
      colLoop2 prm tab t y h scale tol LUs max_iter (m + 1) k Y Yp
          nuOld rate0
        = ⟨false, k + 1, Y, Yp, fun i j => Y i j - y j, rate0⟩) ∧
    (∀ cj : Bool,
      (innerSolve prm tab cfg t y yp (clipT cfg t h_abs).2
          (stageGuess cfg tab sol t (clipT cfg t h_abs).2 y)
          (scaleOf cfg y) LUs0 cj Jy Jyp).res.converged = false →
      ¬ h_abs < min_step →
      ∃ hnew : F,
        attemptBody prm tab cfg t y yp min_step hao eno sol h_abs factor
            LUs0 cj Jy Jyp
          = .retry hnew factor none
              (innerSolve prm tab cfg t y yp (clipT cfg t h_abs).2
                (stageGuess cfg tab sol t (clipT cfg t h_abs).2 y)
                (scaleOf cfg y) LUs0 cj Jy Jyp).current_jac
              (innerSolve prm tab cfg t y yp (clipT cfg t h_abs).2
                (stageGuess cfg tab sol t (clipT cfg t h_abs).2 y)
                (scaleOf cfg y) LUs0 cj Jy Jyp).Jy
              (innerSolve prm tab cfg t y yp (clipT cfg t h_abs).2
                (stageGuess cfg tab sol t (clipT cfg t h_abs).2 y)
                (scaleOf cfg y) LUs0 cj Jy Jyp).Jyp) := by
  refine ⟨?_, ?_, ?_⟩
  · intro hfin
    simp [colLoop1, colCorr1, hfin]
  · intro hfin
    simp [colLoop2, colCorr2, hfin]
  · intro cj hcv hmin
    refine ⟨|(clipT cfg t h_abs).2| * (1 / 2), ?_⟩
    simp only [attemptBody]
    rw [if_neg hmin]
    simp only [hcv, Bool.false_eq_true, not_false_eq_true, if_pos]

/-- C5: after a converged collocation solve, the attempt is accepted
exactly when the mixed, scale-normalized error norm is at most 1; on
rejection the step magnitude is multiplied by `safety·predict_factor`
with `safety = 0.9·(2·newton_max_iter+1)/(2·newton_max_iter+n_iter)`
(which decreases as the Newton iterations used approach the budget) and
the factorizations are invalidated before the retry; every accepted step
therefore has `error_norm ≤ 1` at acceptance, the stored
`error_norm_old` is updated exactly on acceptance, and a failed call
leaves the persistent state untouched. -/
theorem error_norm_acceptance {sm : ℕ} (prm : Prims (sm + 1) n F LU)
    (tab : Tableau (sm + 1) F) (cfg : Config n F) (t : F) (y yp : Vec n F)
    (min_step : F) (hao eno : Option F)
    (sol : Option (RadauDenseOutput n (sm + 1) F)) (h_abs : F)
    (factor : Option F) (LUs0 : Option (Fin (sm + 1) → LU)) (cj : Bool)
    (Jy Jyp : NMat n F) (err_emb : Vec n F) (N a b : ℕ) (fuel : ℕ)
    (st st' st2 : StepState (sm + 1) n F LU) (msg : String) :
    ((innerSolve prm tab cfg t y yp (clipT cfg t h_abs).2
        (stageGuess cfg tab sol t (clipT cfg t h_abs).2 y)
        (scaleOf cfg y) LUs0 cj Jy Jyp).res.converged = true →
      errorEstimate prm tab cfg (clipT cfg t h_abs).1 (clipT cfg t h_abs).2
        y yp
        (innerSolve prm tab cfg t y yp (clipT cfg t h_abs).2
          (stageGuess cfg tab sol t (clipT cfg t h_abs).2 y)
          (scaleOf cfg y) LUs0 cj Jy Jyp).res.Y
        (innerSolve prm tab cfg t y yp (clipT cfg t h_abs).2
          (stageGuess cfg tab sol t (clipT cfg t h_abs).2 y)
          (scaleOf cfg y) LUs0 cj Jy Jyp).res.Yp
        (innerSolve prm tab cfg t y yp (clipT cfg t h_abs).2
          (stageGuess cfg tab sol t (clipT cfg t h_abs).2 y)
          (scaleOf cfg y) LUs0 cj Jy Jyp).LUs = some err_emb →
      ¬ h_abs < min_step →
      ((1 < mixedErrorNorm prm tab cfg y
            (innerSolve prm tab cfg t y yp (clipT cfg t h_abs).2
              (stageGuess cfg tab sol t (clipT cfg t h_abs).2 y)
              (scaleOf cfg y) LUs0 cj Jy Jyp).res.Y err_emb →
          attemptBody prm tab cfg t y yp min_step hao eno sol h_abs factor
              LUs0 cj Jy Jyp
            = .retry (|(clipT cfg t h_abs).2|
                  * (step_safety cfg.newton_max_iter
                      (innerSolve prm tab cfg t y yp (clipT cfg t h_abs).2
                        (stageGuess cfg tab sol t (clipT cfg t h_abs).2 y)
                        (scaleOf cfg y) LUs0 cj Jy Jyp).res.n_iter
                    * predict_factor prm.atanF prm.powF
                        |(clipT cfg t h_abs).2| hao
                        (mixedErrorNorm prm tab cfg y
                          (innerSolve prm tab cfg t y yp
                            (clipT cfg t h_abs).2
                            (stageGuess cfg tab sol t
                              (clipT cfg t h_abs).2 y)
                            (scaleOf cfg y) LUs0 cj Jy Jyp).res.Y err_emb)
                        eno (sm + 1)))
                (some (predict_factor prm.atanF prm.powF
                  |(clipT cfg t h_abs).2| hao
                  (mixedErrorNorm prm tab cfg y
                    (innerSolve prm tab cfg t y yp (clipT cfg t h_abs).2
                      (stageGuess cfg tab sol t (clipT cfg t h_abs).2 y)
                      (scaleOf cfg y) LUs0 cj Jy Jyp).res.Y err_emb)
                  eno (sm + 1)))
                none
                (innerSolve prm tab cfg t y yp (clipT cfg t h_abs).2
                  (stageGuess cfg tab sol t (clipT cfg t h_abs).2 y)
                  (scaleOf cfg y) LUs0 cj Jy Jyp).current_jac
                (innerSolve prm tab cfg t y yp (clipT cfg t h_abs).2
                  (stageGuess cfg tab sol t (clipT cfg t h_abs).2 y)
                  (scaleOf cfg y) LUs0 cj Jy Jyp).Jy
                (innerSolve prm tab cfg t y yp (clipT cfg t h_abs).2
                  (stageGuess cfg tab sol t (clipT cfg t h_abs).2 y)
                  (scaleOf cfg y) LUs0 cj Jy Jyp).Jyp) ∧
        ((∃ d, attemptBody prm tab cfg t y yp min_step hao eno sol h_abs
              factor LUs0 cj Jy Jyp = .accept d
            ∧ d.error_norm = mixedErrorNorm prm tab cfg y
                (innerSolve prm tab cfg t y yp (clipT cfg t h_abs).2
                  (stageGuess cfg tab sol t (clipT cfg t h_abs).2 y)
                  (scaleOf cfg y) LUs0 cj Jy Jyp).res.Y err_emb)
          ↔ mixedErrorNorm prm tab cfg y
              (innerSolve prm tab cfg t y yp (clipT cfg t h_abs).2
                (stageGuess cfg tab sol t (clipT cfg t h_abs).2 y)
                (scaleOf cfg y) LUs0 cj Jy Jyp).res.Y err_emb ≤ 1))) ∧
    (1 ≤ a → a ≤ b → (step_safety N b : F) ≤ (step_safety N a : F)) ∧
    (step_impl prm tab cfg fuel st = .success st' →
      ∃ e, st'.error_norm_old = some e ∧ e ≤ 1) ∧
    (step_impl prm tab cfg fuel st = .failure msg st2 → st2 = st) := by
  refine ⟨?_, ?_, ?_, ?_⟩
  · intro hcv hest hmin
    simp only [attemptBody]
    rw [if_neg hmin]
    simp only [hcv, not_true_eq_false, if_neg, if_false, hest]
    constructor
    · intro hgt
      rw [if_pos hgt]
    · constructor
      · rintro ⟨d, hd, hde⟩
        by_contra hgt
        rw [not_le] at hgt
        rw [if_pos hgt] at hd
        exact Attempt.noConfusion hd
      · intro hle
        rw [if_neg (not_lt.mpr hle)]
        exact ⟨_, rfl, rfl⟩
  · intro h1a hab
    have ha' : (1 : F) ≤ (a : F) := by exact_mod_cast h1a
    have hab' : (a : F) ≤ (b : F) := by exact_mod_cast hab
    have hN : (0 : F) ≤ (N : F) := Nat.cast_nonneg N
    have hnum : (0 : F) ≤ 9 / 10 * (2 * (N : F) + 1) := by nlinarith
    have hpos : (0 : F) < 2 * (N : F) + (a : F) := by nlinarith
    have hle : 2 * (N : F) + (a : F) ≤ 2 * (N : F) + (b : F) := by
      nlinarith
    simp only [step_safety]
    exact div_le_div_of_nonneg_left hnum hpos hle
  · intro hEq
    simp only [step_impl] at hEq
    obtain ⟨d, hr, hst⟩ := stepFinish_success prm tab cfg st _ _ _ st' hEq
    subst hst
    exact ⟨d.error_norm, rfl,
      stepLoop_accept_error_le prm tab cfg st.t st.y st.yp _ _ _ st.sol
        fuel _ none st.LUs st.current_jac st.Jy st.Jyp d hr⟩
  · intro hEq
    simp only [step_impl] at hEq
    exact (stepFinish_failure prm tab cfg st _ _ _ msg st2 hEq).2.1

/-- Helper: concrete successful run — the zero-residual instance
converges in one iteration with error norm 0 and the step is accepted. -/
theorem wGood_run :
    step_impl wPrimGood cTab wCfg 1 wState
      = .success ((step_impl wPrimGood cTab wCfg 1 wState).getSuccess
          wState) := by
  norm_num [step_impl, stepFinish, stepLoop, attemptBody, minStepOf,
    stepEntryClamp, clipT, scaleOf, stageGuess, innerSolve, innerLUs1,
    buildLUs, runStrategy, solve_collocation_system2, colEntry2, colLoop2,
    colCorr2, stageResiduals, stageMul, divergeB, convergeB, errorEstimate,
    mixedErrorNorm, step_safety, predict_factor, KAPPA, min_def, max_def,
    abs_div, postAccept, recomputeJacB, postFactor, compute_dense_output,
    StepResult.getSuccess, wPrimGood, cPrim, cTab, wCfg, wState,
    Fin.sum_univ_one]

/-- Witness for C5: the zero-residual attempt is accepted, the safety
factor decreases from `n_iter = 1` to `n_iter = 2`, the concrete
successful run stores an accepted error norm, and the concrete failing
run leaves the state untouched. -/
theorem error_norm_acceptance_witness :
    (∃ d, attemptBody cPrim cTab wCfg 0 (fun _ => 0) (fun _ => 0) (1 / 2)
        none none none 1 none none true (fun _ _ => 0) (fun _ _ => 0)
        = .accept d) ∧
    ((step_safety 1 2 : ℚ) ≤ (step_safety 1 1 : ℚ)) ∧
    (∃ e, ((step_impl wPrimGood cTab wCfg 1 wState).getSuccess
        wState).error_norm_old = some e ∧ e ≤ 1) ∧
    wStateF = wStateF := by
  have hcv : (innerSolve cPrim cTab wCfg 0 (fun _ => 0) (fun _ => 0)
      (clipT wCfg 0 1).2
      (stageGuess wCfg cTab none 0 (clipT wCfg 0 1).2 (fun _ => 0))
      (scaleOf wCfg (fun _ => 0)) none true (fun _ _ => 0)
      (fun _ _ => 0)).res.converged = true := by
    norm_num [innerSolve, innerLUs1, buildLUs, runStrategy,
      solve_collocation_system2, colEntry2, colLoop2, colCorr2,
      stageResiduals, stageMul, divergeB, convergeB, clipT, stageGuess,
      scaleOf, cPrim, cTab, wCfg, Fin.sum_univ_one]
  have hest : errorEstimate cPrim cTab wCfg (clipT wCfg 0 1).1
      (clipT wCfg 0 1).2 (fun _ => 0) (fun _ => 0)
      (innerSolve cPrim cTab wCfg 0 (fun _ => 0) (fun _ => 0)
        (clipT wCfg 0 1).2
        (stageGuess wCfg cTab none 0 (clipT wCfg 0 1).2 (fun _ => 0))
        (scaleOf wCfg (fun _ => 0)) none true (fun _ _ => 0)
        (fun _ _ => 0)).res.Y
      (innerSolve cPrim cTab wCfg 0 (fun _ => 0) (fun _ => 0)
        (clipT wCfg 0 1).2
        (stageGuess wCfg cTab none 0 (clipT wCfg 0 1).2 (fun _ => 0))
        (scaleOf wCfg (fun _ => 0)) none true (fun _ _ => 0)
        (fun _ _ => 0)).res.Yp
      (innerSolve cPrim cTab wCfg 0 (fun _ => 0) (fun _ => 0)
        (clipT wCfg 0 1).2
        (stageGuess wCfg cTab none 0 (clipT wCfg 0 1).2 (fun _ => 0))
        (scaleOf wCfg (fun _ => 0)) none true (fun _ _ => 0)
        (fun _ _ => 0)).LUs
      = some ((errorEstimate cPrim cTab wCfg (clipT wCfg 0 1).1
          (clipT wCfg 0 1).2 (fun _ => 0) (fun _ => 0)
          (innerSolve cPrim cTab wCfg 0 (fun _ => 0) (fun _ => 0)
            (clipT wCfg 0 1).2
            (stageGuess wCfg cTab none 0 (clipT wCfg 0 1).2 (fun _ => 0))
            (scaleOf wCfg (fun _ => 0)) none true (fun _ _ => 0)
            (fun _ _ => 0)).res.Y
          (innerSolve cPrim cTab wCfg 0 (fun _ => 0) (fun _ => 0)
            (clipT wCfg 0 1).2
            (stageGuess wCfg cTab none 0 (clipT wCfg 0 1).2 (fun _ => 0))
            (scaleOf wCfg (fun _ => 0)) none true (fun _ _ => 0)
            (fun _ _ => 0)).res.Yp
          (innerSolve cPrim cTab wCfg 0 (fun _ => 0) (fun _ => 0)
            (clipT wCfg 0 1).2
            (stageGuess wCfg cTab none 0 (clipT wCfg 0 1).2 (fun _ => 0))
            (scaleOf wCfg (fun _ => 0)) none true (fun _ _ => 0)
            (fun _ _ => 0)).LUs).getD (fun _ => 0)) := by
    norm_num [errorEstimate, innerSolve, innerLUs1, buildLUs, runStrategy,
      solve_collocation_system2, colEntry2, colLoop2, colCorr2,
      stageResiduals, stageMul, divergeB, convergeB, clipT, stageGuess,
      scaleOf, Option.getD, cPrim, cTab, wCfg, Fin.sum_univ_one]
  have hle : mixedErrorNorm cPrim cTab wCfg (fun _ => 0)
      (innerSolve cPrim cTab wCfg 0 (fun _ => 0) (fun _ => 0)
        (clipT wCfg 0 1).2
        (stageGuess wCfg cTab none 0 (clipT wCfg 0 1).2 (fun _ => 0))
        (scaleOf wCfg (fun _ => 0)) none true (fun _ _ => 0)
        (fun _ _ => 0)).res.Y
      ((errorEstimate cPrim cTab wCfg (clipT wCfg 0 1).1
          (clipT wCfg 0 1).2 (fun _ => 0) (fun _ => 0)
          (innerSolve cPrim cTab wCfg 0 (fun _ => 0) (fun _ => 0)
            (clipT wCfg 0 1).2
            (stageGuess wCfg cTab none 0 (clipT wCfg 0 1).2 (fun _ => 0))
            (scaleOf wCfg (fun _ => 0)) none true (fun _ _ => 0)
            (fun _ _ => 0)).res.Y
          (innerSolve cPrim cTab wCfg 0 (fun _ => 0) (fun _ => 0)
            (clipT wCfg 0 1).2
            (stageGuess wCfg cTab none 0 (clipT wCfg 0 1).2 (fun _ => 0))
            (scaleOf wCfg (fun _ => 0)) none true (fun _ _ => 0)
            (fun _ _ => 0)).res.Yp
          (innerSolve cPrim cTab wCfg 0 (fun _ => 0) (fun _ => 0)
            (clipT wCfg 0 1).2
            (stageGuess wCfg cTab none 0 (clipT wCfg 0 1).2 (fun _ => 0))
            (scaleOf wCfg (fun _ => 0)) none true (fun _ _ => 0)
            (fun _ _ => 0)).LUs).getD (fun _ => 0)) ≤ 1 := by
    norm_num [mixedErrorNorm, errorEstimate, innerSolve, innerLUs1,
      buildLUs, runStrategy, solve_collocation_system2, colEntry2,
      colLoop2, colCorr2, stageResiduals, stageMul, divergeB, convergeB,
      clipT, stageGuess, scaleOf, Option.getD, cPrim, cTab, wCfg,
      Fin.sum_univ_one]
  have h := (error_norm_acceptance cPrim cTab wCfg 0 (fun _ => 0)
    (fun _ => 0) (1 / 2) none none none 1 none none true (fun _ _ => 0)
    (fun _ _ => 0)
    ((errorEstimate cPrim cTab wCfg (clipT wCfg 0 1).1
        (clipT wCfg 0 1).2 (fun _ => 0) (fun _ => 0)
        (innerSolve cPrim cTab wCfg 0 (fun _ => 0) (fun _ => 0)
          (clipT wCfg 0 1).2
          (stageGuess wCfg cTab none 0 (clipT wCfg 0 1).2 (fun _ => 0))
          (scaleOf wCfg (fun _ => 0)) none true (fun _ _ => 0)
          (fun _ _ => 0)).res.Y
        (innerSolve cPrim cTab wCfg 0 (fun _ => 0) (fun _ => 0)
          (clipT wCfg 0 1).2
          (stageGuess wCfg cTab none 0 (clipT wCfg 0 1).2 (fun _ => 0))
          (scaleOf wCfg (fun _ => 0)) none true (fun _ _ => 0)
          (fun _ _ => 0)).res.Yp
        (innerSolve cPrim cTab wCfg 0 (fun _ => 0) (fun _ => 0)
          (clipT wCfg 0 1).2
          (stageGuess wCfg cTab none 0 (clipT wCfg 0 1).2 (fun _ => 0))
          (scaleOf wCfg (fun _ => 0)) none true (fun _ _ => 0)
          (fun _ _ => 0)).LUs).getD (fun _ => 0)) 1 1 2 0 wState wState
    wState "").1 hcv hest (by norm_num)
  refine ⟨?_, ?_, ?_, ?_⟩
  · obtain ⟨d, hd, -⟩ := h.2.mpr hle
    exact ⟨d, hd⟩
  · exact (error_norm_acceptance cPrim cTab wCfg 0 (fun _ => 0)
      (fun _ => 0) (1 / 2) none none none 1 none none true (fun _ _ => 0)
      (fun _ _ => 0) (fun _ => 0) 1 1 2 0 wState wState wState "").2.1
      (by norm_num) (by norm_num)
  · exact (error_norm_acceptance wPrimGood cTab wCfg 0 (fun _ => 0)
      (fun _ => 0) (1 / 2) none none none 1 none none true (fun _ _ => 0)
      (fun _ _ => 0) (fun _ => 0) 1 1 2 1 wState
      ((step_impl wPrimGood cTab wCfg 1 wState).getSuccess wState) wState
      "").2.2.1 wGood_run
  · exact (error_norm_acceptance wPrimFail cTab wCfg 0 (fun _ => 0)
      (fun _ => 0) (1 / 2) none none none 1 none none true (fun _ _ => 0)
      (fun _ _ => 0) (fun _ => 0) 1 1 2 2 wStateF
      ((step_impl wPrimGood cTab wCfg 1 wState).getSuccess wState)
      wStateF TOO_SMALL_STEP).2.2.2 wFail_run

/-- Witness for C8 at the instance whose finiteness check always fails:
both collocation loops abort unconverged on their first iteration without
applying a correction, and the engine answers the unconverged solve with
a retry. -/
theorem nonfinite_residual_witness :
    (colLoop1 wPrimInf cTab 0 (fun _ => 0) 1 (fun _ => 1) 1 (fun _ => ())
        1 (0 + 1) 0 (fun _ _ => 0) (fun _ _ => 0) (fun _ _ => 0)
        (fun _ _ => 0) none none
      = ⟨false, 0 + 1, fun _ _ => 0, fun _ _ => 0, fun _ _ => 0, none⟩) ∧
    (colLoop2 wPrimInf cTab 0 (fun _ => 0) 1 (fun _ => 1) 1 (fun _ => ())
        1 (0 + 1) 0 (fun _ _ => 0) (fun _ _ => 0) none none
      = ⟨false, 0 + 1, fun _ _ => 0, fun _ _ => 0,
          fun i j => (fun _ _ => (0 : ℚ)) i j - (fun _ => (0 : ℚ)) j,
          none⟩) ∧
    (∃ hnew : ℚ,
      attemptBody wPrimInf cTab wCfg 0 (fun _ => 0) (fun _ => 0) (1 / 2)
          none none none 1 none none true (fun _ _ => 0) (fun _ _ => 0)
        = .retry hnew none none
            (innerSolve wPrimInf cTab wCfg 0 (fun _ => 0) (fun _ => 0)
              (clipT wCfg 0 1).2
              (stageGuess wCfg cTab none 0 (clipT wCfg 0 1).2
                (fun _ => 0))
              (scaleOf wCfg (fun _ => 0)) none true (fun _ _ => 0)
              (fun _ _ => 0)).current_jac
            (innerSolve wPrimInf cTab wCfg 0 (fun _ => 0) (fun _ => 0)
              (clipT wCfg 0 1).2
              (stageGuess wCfg cTab none 0 (clipT wCfg 0 1).2
                (fun _ => 0))
              (scaleOf wCfg (fun _ => 0)) none true (fun _ _ => 0)
              (fun _ _ => 0)).Jy
            (innerSolve wPrimInf cTab wCfg 0 (fun _ => 0) (fun _ => 0)
              (clipT wCfg 0 1).2
              (stageGuess wCfg cTab none 0 (clipT wCfg 0 1).2
                (fun _ => 0))
              (scaleOf wCfg (fun _ => 0)) none true (fun _ _ => 0)
              (fun _ _ => 0)).Jyp) := by
  have h := nonfinite_residual_local_divergence wPrimInf cTab wCfg 0
    (fun _ => 0) (fun _ => 0) 1 (fun _ => 1) 1 (fun _ => ()) 1 0 0
    (fun _ _ => 0) (fun _ _ => 0) (fun _ _ => 0) (fun _ _ => 0) none none
    (1 / 2) none none none 1 none none (fun _ _ => 0) (fun _ _ => 0)
  refine ⟨h.1 rfl, h.2.1 rfl, h.2.2 true ?_ (by norm_num)⟩
  norm_num [innerSolve, innerLUs1, buildLUs, runStrategy,
    solve_collocation_system2, colEntry2, colLoop2, colCorr2,
    stageResiduals, stageMul, divergeB, convergeB, clipT, stageGuess,
    scaleOf, wPrimInf, cPrim, cTab, wCfg, Fin.sum_univ_one]

/-- C9: after an accepted step, if no Jacobian recompute is pending and
the step factor lies in the configured deadband `[low, high]` (default
`(1.0, 1.2)`), the factor is snapped to exactly 1 and the cached
factorizations are preserved into the next step; in every other
post-acceptance case the factorizations are invalidated, and whenever the
factorizations are preserved the step magnitude is unchanged and the
Jacobian pair is untouched — factorizations are never carried across a
step-size change or a Jacobian update. -/
theorem deadband_hysteresis {sm : ℕ} (prm : Prims (sm + 1) n F LU)
    (tab : Tableau (sm + 1) F) (cfg : Config n F)
    (st : StepState (sm + 1) n F LU) (hao eno : Option F)
    (d : AcceptData sm n F LU) :
    (recomputeJacB prm cfg d = false →
      cfg.controller_deadband.1 ≤ postFactor prm cfg hao eno d →
      postFactor prm cfg hao eno d ≤ cfg.controller_deadband.2 →
      (postAccept prm tab cfg st hao eno d).h_abs = d.h_abs * 1
        ∧ (postAccept prm tab cfg st hao eno d).LUs = some d.LUs) ∧
    (recomputeJacB prm cfg d = true ∨
        postFactor prm cfg hao eno d < cfg.controller_deadband.1 ∨
        cfg.controller_deadband.2 < postFactor prm cfg hao eno d →
      (postAccept prm tab cfg st hao eno d).LUs = none) ∧
    (∀ l, (postAccept prm tab cfg st hao eno d).LUs = some l →
      (postAccept prm tab cfg st hao eno d).h_abs = d.h_abs
        ∧ (postAccept prm tab cfg st hao eno d).Jy = d.Jy
        ∧ (postAccept prm tab cfg st hao eno d).Jyp = d.Jyp) ∧
    controller_deadband_default = ((1 : F), 6 / 5) := by
  refine ⟨?_, ?_, ?_, rfl⟩
  · intro hrec hlow hhigh
    have hdead : ¬ recomputeJacB prm cfg d = true
        ∧ cfg.controller_deadband.1 ≤ postFactor prm cfg hao eno d
        ∧ postFactor prm cfg hao eno d ≤ cfg.controller_deadband.2 :=
      ⟨by simp [hrec], hlow, hhigh⟩
    constructor
    · simp only [postAccept]
      rw [if_pos hdead]
    · simp only [postAccept]
      rw [if_pos hdead]
  · intro hcase
    have hdead : ¬ (¬ recomputeJacB prm cfg d = true
        ∧ cfg.controller_deadband.1 ≤ postFactor prm cfg hao eno d
        ∧ postFactor prm cfg hao eno d ≤ cfg.controller_deadband.2) := by
      rintro ⟨hnr, hl, hh⟩
      rcases hcase with hrec | hlt | hgt
      · exact hnr hrec
      · exact absurd hl (not_le.mpr hlt)
      · exact absurd hh (not_le.mpr hgt)
    simp only [postAccept]
    rw [if_neg hdead]
  · intro l hl
    by_cases hdead : ¬ recomputeJacB prm cfg d = true
        ∧ cfg.controller_deadband.1 ≤ postFactor prm cfg hao eno d
        ∧ postFactor prm cfg hao eno d ≤ cfg.controller_deadband.2
    · have hrec : recomputeJacB prm cfg d = false := by
        rcases hdead with ⟨hnr, -, -⟩
        simpa using hnr
      refine ⟨?_, ?_, ?_⟩
      · simp only [postAccept]
        rw [if_pos hdead, mul_one]
      · simp only [postAccept]
        rw [if_neg (by simp [hrec])]
      · simp only [postAccept]
        rw [if_neg (by simp [hrec])]
    · exfalso
      simp only [postAccept] at hl
      rw [if_neg hdead] at hl
      exact Option.noConfusion hl

/-- Witness for C9 at the concrete accepted-attempt data: a stored
factor 1 inside the default deadband preserves the factorizations with
the step magnitude snapped, a stored factor 2 outside it invalidates
them, and the preserved case keeps step and Jacobians unchanged. -/
theorem deadband_hysteresis_witness :
    ((postAccept cPrim cTab wCfg wState none none wdIn).h_abs
        = wdIn.h_abs * 1
      ∧ (postAccept cPrim cTab wCfg wState none none wdIn).LUs
        = some wdIn.LUs) ∧
    (postAccept cPrim cTab wCfg wState none none wdOut).LUs = none ∧
    ((postAccept cPrim cTab wCfg wState none none wdIn).h_abs = wdIn.h_abs
      ∧ (postAccept cPrim cTab wCfg wState none none wdIn).Jy = wdIn.Jy
      ∧ (postAccept cPrim cTab wCfg wState none none wdIn).Jyp
        = wdIn.Jyp) := by
  have h := deadband_hysteresis cPrim cTab wCfg wState none none wdIn
  have hrec : recomputeJacB cPrim wCfg wdIn = false := by
    norm_num [recomputeJacB, cPrim, wdIn]
  have h1 := h.1 hrec (by norm_num [postFactor, wdIn, wCfg])
    (by norm_num [postFactor, wdIn, wCfg])
  refine ⟨h1, ?_, h.2.2.1 wdIn.LUs h1.2⟩
  exact (deadband_hysteresis cPrim cTab wCfg wState none none wdOut).2.1
    (Or.inr (Or.inr (by norm_num [postFactor, wdOut, wdIn, wCfg])))

/-- C10: at entry to a step attempt, a stored step magnitude above
`max_step` (resp. below `min_step`) is clamped to the violated bound and
the attempt-local previous (step, error-norm) history is discarded, so
the step controller falls back to its one-step algorithm
(`multiplier = 1`); in-range magnitudes pass through with their history;
and the persistent `h_abs_old`/`error_norm_old` fields are not modified
by the clamping — a failed call leaves the state untouched, and on
success `h_abs_old` receives the unclamped pre-step `h_abs`. -/
theorem entry_clamp_discards_history {sm : ℕ}
    (prm : Prims (sm + 1) n F LU) (tab : Tableau (sm + 1) F)
    (cfg : Config n F) (h_abs max_step min_step : F)
    (hao eno : Option F) (fuel : ℕ)
    (st st' st2 : StepState (sm + 1) n F LU) (msg : String)
    (e h' : F) (s' : ℕ) :
    (max_step < h_abs →
      stepEntryClamp h_abs max_step min_step hao eno
        = (max_step, none, none)) ∧
    (h_abs ≤ max_step → h_abs < min_step →
      stepEntryClamp h_abs max_step min_step hao eno
        = (min_step, none, none)) ∧
    (h_abs ≤ max_step → ¬ h_abs < min_step →
      stepEntryClamp h_abs max_step min_step hao eno
        = (h_abs, hao, eno)) ∧
    (step_impl prm tab cfg fuel st = .failure msg st2 → st2 = st) ∧
    (step_impl prm tab cfg fuel st = .success st' →
      st'.h_abs_old = some st.h_abs) ∧
    (predict_factor prm.atanF prm.powF h' none e none s'
      = 1 + KAPPA * prm.atanF
          ((min 1 1 * prm.powF e (-(1 / ((s' : F) + 1))) - 1) / KAPPA)) := by
  refine ⟨?_, ?_, ?_, ?_, ?_, rfl⟩
  · intro hgt
    simp only [stepEntryClamp]
    rw [if_pos hgt]
  · intro hle hlt
    simp only [stepEntryClamp]
    rw [if_neg (not_lt.mpr hle), if_pos hlt]
  · intro hle hnlt
    simp only [stepEntryClamp]
    rw [if_neg (not_lt.mpr hle), if_neg hnlt]
  · intro hEq
    simp only [step_impl] at hEq
    exact (stepFinish_failure prm tab cfg st _ _ _ msg st2 hEq).2.1
  · intro hEq
    simp only [step_impl] at hEq
    obtain ⟨d, hr, hst⟩ := stepFinish_success prm tab cfg st _ _ _ st' hEq
    subst hst
    rfl

/-- Witness for C10: the three entry-clamp cases at concrete magnitudes,
the failing run leaving the state untouched, and the successful run
storing the unclamped pre-step magnitude into `h_abs_old`. -/
theorem entry_clamp_witness :
    stepEntryClamp (60 : ℚ) 50 10 (some 7) (some (1 / 3))
        = (50, none, none) ∧
    stepEntryClamp (1 : ℚ) 50 10 (some 7) (some (1 / 3))
        = (10, none, none) ∧
    stepEntryClamp (20 : ℚ) 50 10 (some 7) (some (1 / 3))
        = (20, some 7, some (1 / 3)) ∧
    wStateF = wStateF ∧
    ((step_impl wPrimGood cTab wCfg 1 wState).getSuccess
        wState).h_abs_old = some wState.h_abs := by
  refine ⟨?_, ?_, ?_, ?_, ?_⟩
  · exact (entry_clamp_discards_history cPrim cTab wCfg 60 50 10 (some 7)
      (some (1 / 3)) 0 wState wState wState TOO_SMALL_STEP 0 0
      0).1 (by norm_num)
  · exact (entry_clamp_discards_history cPrim cTab wCfg 1 50 10 (some 7)
      (some (1 / 3)) 0 wState wState wState TOO_SMALL_STEP 0 0
      0).2.1 (by norm_num) (by norm_num)
  · exact (entry_clamp_discards_history cPrim cTab wCfg 20 50 10 (some 7)
      (some (1 / 3)) 0 wState wState wState TOO_SMALL_STEP 0 0
      0).2.2.1 (by norm_num) (by norm_num)
  · exact (entry_clamp_discards_history wPrimFail cTab wCfg 20 50 10
      (some 7) (some (1 / 3)) 2 wStateF wStateF wStateF TOO_SMALL_STEP 0 0
      0).2.2.2.1 wFail_run
  · exact (entry_clamp_discards_history wPrimGood cTab wCfg 20 50 10
      (some 7) (some (1 / 3)) 1 wState
      ((step_impl wPrimGood cTab wCfg 1 wState).getSuccess wState) wState
      TOO_SMALL_STEP 0 0 0).2.2.2.2.1 wGood_run

/-- C2 counterexample: a dense output built by `_compute_dense_output`
from a solved stage value, evaluated exactly at `t_old`, returns a
derivative different from the stored `yp_old`: with `y_old = yp_old = 0`,
`Y = 1`, `P = 1` over `[0, 1]`, the returned derivative at `t_old` is `1`
while `yp_old` is `0`. -/
theorem dense_output_yp_old_refuted :
    (cDense.callImpl cDense.t_old).2 ≠ cDense.yp_old := by
  intro hEq
  have h0 := congrFun hEq 0
  norm_num [cDense, compute_dense_output, RadauDenseOutput.callImpl,
    Fin.sum_univ_one] at h0

end PTIRK
